import Mathlib

/-
Formal model of the Overlord BFT consensus engine (daogangtang/overlord).

The development shallowly embeds the message store ("cabinet", src/cabinet.rs),
the timeout scheduler (src/timer.rs) and the data model (src/types.rs) as
executable Lean definitions, and proves the specified properties about them.
Rust maps (HashMap / BTreeMap) are embedded as association lists; u32 / u64
arithmetic is embedded on Nat with explicit reduction modulo 2^32 at the
points where the source performs u32 arithmetic or an `as u32` cast.
-/

set_option linter.unusedSectionVars false

namespace Overlord

/-! ### Association lists: embedding of HashMap / BTreeMap -/

/-- Association list embedding a Rust map.  `getA` is `HashMap::get`
(first matching key), `insertA` is `HashMap::insert` (replace the value of
the first matching key, append otherwise). -/
abbrev AListM (K V : Type) : Type := List (K × V)

def getA {K V : Type} [DecidableEq K] (k : K) : AListM K V → Option V
  | [] => none
  | (k', v) :: t => if k' = k then some v else getA k t

def insertA {K V : Type} [DecidableEq K] (k : K) (v : V) : AListM K V → AListM K V
  | [] => [(k, v)]
  | (k', v') :: t => if k' = k then (k', v) :: t else (k', v') :: insertA k v t

/-- Keys of an association list are pairwise distinct. -/
def NodupKeys {K V : Type} (l : AListM K V) : Prop :=
  List.Pairwise (fun p q => p.1 ≠ q.1) l

instance {K V : Type} [DecidableEq K] (l : AListM K V) : Decidable (NodupKeys l) := by
  unfold NodupKeys; infer_instance

theorem getA_insertA_self {K V : Type} [DecidableEq K] (k : K) (v : V) (l : AListM K V) :
    getA k (insertA k v l) = some v := by
  induction l with
  | nil => simp [getA, insertA]
  | cons p t ih =>
    obtain ⟨k', v'⟩ := p
    by_cases h : k' = k <;> simp [getA, insertA, h, ih]

theorem getA_insertA_ne {K V : Type} [DecidableEq K] {k k' : K} (v : V) (l : AListM K V)
    (h : k' ≠ k) : getA k' (insertA k v l) = getA k' l := by
  induction l with
  | nil => simp [getA, insertA, Ne.symm h]
  | cons p t ih =>
    obtain ⟨k₀, v₀⟩ := p
    simp only [insertA]
    by_cases h₀ : k₀ = k
    · subst h₀
      simp [getA, Ne.symm h]
    · simp [getA, h₀, ih]

theorem insertA_of_getA_eq {K V : Type} [DecidableEq K] {k : K} {v : V} {l : AListM K V}
    (h : getA k l = some v) : insertA k v l = l := by
  induction l with
  | nil => simp [getA] at h
  | cons p t ih =>
    obtain ⟨k₀, v₀⟩ := p
    by_cases h₀ : k₀ = k
    · simp [getA, h₀] at h
      simp [insertA, h₀, h]
    · simp [getA, h₀] at h
      simp [insertA, h₀, ih h]

theorem getA_mem {K V : Type} [DecidableEq K] {k : K} {v : V} {l : AListM K V}
    (h : getA k l = some v) : (k, v) ∈ l := by
  induction l with
  | nil => simp [getA] at h
  | cons p t ih =>
    obtain ⟨k₀, v₀⟩ := p
    by_cases h₀ : k₀ = k
    · subst h₀; simp [getA] at h; simp [h]
    · simp [getA, h₀] at h
      exact List.mem_cons_of_mem _ (ih h)

theorem getA_filter_key {K V : Type} [DecidableEq K] (p : K → Bool) (k : K) (l : AListM K V) :
    getA k (l.filter (fun q => p q.1)) = if p k then getA k l else none := by
  induction l with
  | nil => simp [getA]
  | cons q t ih =>
    obtain ⟨k₀, v₀⟩ := q
    by_cases h₀ : k₀ = k
    · subst h₀
      by_cases hp : p k₀ <;> simp [List.filter, getA, hp, ih]
    · by_cases hp : p k₀ <;> by_cases hk : p k <;>
        simp [List.filter, getA, hp, hk, h₀, ih]

/-! ### Data model (src/types.rs) -/

/-- `Bytes`: an opaque byte string. -/
abbrev Bytes : Type := List Nat
abbrev Hash : Type := Bytes
abbrev Address : Type := Bytes
abbrev Signature : Type := Bytes
abbrev Height : Type := Nat
abbrev Round : Type := Nat

/-- `Weight` is `u32` in the source; embedded on `Nat`, with reduction
modulo `u32Size` wherever the source performs a `u32` addition. -/
abbrev Weight : Type := Nat

def u32Size : Nat := 2 ^ 32

inductive VoteType : Type
  | PreVote
  | PreCommit
  | Choke
  deriving DecidableEq, Repr

instance : Inhabited VoteType := ⟨VoteType.PreVote⟩

structure Vote : Type where
  height : Height
  round : Round
  block_hash : Hash
  deriving DecidableEq, Repr

instance : Inhabited Vote := ⟨⟨0, 0, []⟩⟩

structure SignedPreVote : Type where
  vote : Vote
  vote_weight : Weight
  voter : Address
  signature : Signature
  deriving DecidableEq, Repr

structure SignedPreCommit : Type where
  vote : Vote
  vote_weight : Weight
  voter : Address
  signature : Signature
  deriving DecidableEq, Repr

structure Aggregates : Type where
  address_bitmap : Bytes
  signature : Signature
  deriving DecidableEq, Repr

structure PreVoteQC : Type where
  vote : Vote
  aggregates : Aggregates
  deriving DecidableEq, Repr

structure PreCommitQC : Type where
  vote : Vote
  aggregates : Aggregates
  deriving DecidableEq, Repr

structure Choke : Type where
  height : Height
  round : Round
  deriving DecidableEq, Repr

structure ChokeQC : Type where
  choke : Choke
  aggregates : Aggregates
  deriving DecidableEq, Repr

inductive UpdateFrom : Type
  | PreVoteQC (qc : PreVoteQC)
  | PreCommitQC (qc : PreCommitQC)
  | ChokeQC (qc : ChokeQC)
  deriving DecidableEq, Repr

/-- `SignedChoke` (the source field `from` is spelled `from_qc` here,
`from` being a Lean keyword). -/
structure SignedChoke : Type where
  choke : Choke
  vote_weight : Weight
  from_qc : Option UpdateFrom
  voter : Address
  signature : Signature
  deriving DecidableEq, Repr

structure Proposal (B : Type) : Type where
  height : Height
  round : Round
  block : B
  block_hash : Hash
  lock : Option PreVoteQC
  proposer : Address
  deriving DecidableEq, Repr

structure SignedProposal (B : Type) : Type where
  proposal : Proposal B
  signature : Signature
  deriving DecidableEq, Repr

structure CumWeight : Type where
  cum_weight : Weight
  vote_type : VoteType
  round : Round
  block_hash : Option Hash
  deriving DecidableEq, Repr

/-- `CumWeight::default()`. -/
instance : Inhabited CumWeight := ⟨⟨0, VoteType.PreVote, 0, none⟩⟩

/-! ### Cabinet (src/cabinet.rs) -/

inductive Capsule (B : Type) : Type
  | SignedProposal (data : SignedProposal B)
  | SignedPreVote (data : SignedPreVote)
  | SignedPreCommit (data : SignedPreCommit)
  | SignedChoke (data : SignedChoke)
  | PreVoteQC (data : PreVoteQC)
  | PreCommitQC (data : PreCommitQC)
  | ChokeQC (data : ChokeQC)
  deriving DecidableEq, Repr

inductive CollectionError (B : Type) : Type
  | AlreadyExists (data : Capsule B)
  | InsertDiff (exist data : Capsule B)
  deriving DecidableEq, Repr

/-- `Grid`: everything the cabinet stores for one (height, round). -/
structure Grid (B : Type) : Type where
  signed_proposal : Option (SignedProposal B)
  signed_pre_votes : AListM Address SignedPreVote
  pre_vote_sets : AListM Hash (List SignedPreVote)
  pre_vote_vote_weights : AListM Hash Weight
  pre_vote_max_vote_weight : CumWeight
  signed_pre_commits : AListM Address SignedPreCommit
  pre_commit_sets : AListM Hash (List SignedPreCommit)
  pre_commit_vote_weights : AListM Hash Weight
  pre_commit_max_vote_weight : CumWeight
  signed_chokes : AListM Address SignedChoke
  choke_vote_weight : CumWeight
  pre_vote_qc : Option PreVoteQC
  pre_commit_qc : Option PreCommitQC
  choke_qc : Option ChokeQC
  deriving DecidableEq, Repr

/-- `Grid::default()`. -/
instance {B : Type} : Inhabited (Grid B) :=
  ⟨⟨none, [], [], [], default, [], [], [], default, [], default, none, none, none⟩⟩

/-- `Drawer`: everything the cabinet stores for one height. -/
structure Drawer (B : Type) : Type where
  collectors : AListM Round (Grid B)
  pre_vote_max_vote_weight : CumWeight
  pre_commit_max_vote_weight : CumWeight
  choke_max_vote_weight : CumWeight
  deriving DecidableEq, Repr

/-- `Drawer::default()`. -/
instance {B : Type} : Inhabited (Drawer B) := ⟨⟨[], default, default, default⟩⟩

/-- `Cabinet(BTreeMap<Height, Drawer>)`. -/
structure Cabinet (B : Type) : Type where
  drawers : AListM Height (Drawer B)
  deriving DecidableEq, Repr

instance {B : Type} : Inhabited (Cabinet B) := ⟨⟨[]⟩⟩

section CabinetOps

variable {B : Type} [DecidableEq B]

/-- `check_exist`: reject a second message in an occupied slot
(`AlreadyExists` when byte-identical, `InsertDiff` otherwise). -/
def check_exist {T : Type} [DecidableEq T] (opt : Option T) (check_data : T)
    (into : T → Capsule B) : Except (CollectionError B) Unit :=
  match opt with
  | some exist_data =>
    if exist_data = check_data then
      Except.error (CollectionError.AlreadyExists (into check_data))
    else
      Except.error (CollectionError.InsertDiff (into exist_data) (into check_data))
  | none => Except.ok ()

/-- `update_vote_weight_map`: accumulate `vote_weight` onto the entry of
`hash`, returning the new cumulative weight and the updated map.  The
source adds with `u32` arithmetic, hence the reduction modulo `u32Size`. -/
def update_vote_weight_map (vote_weight_map : AListM Hash Weight) (hash : Hash)
    (vote_weight : Weight) : Weight × AListM Hash Weight :=
  let cum_weight :=
    match getA hash vote_weight_map with
    | some w => (vote_weight + w) % u32Size
    | none => vote_weight
  (cum_weight, insertA hash cum_weight vote_weight_map)

/-- `update_max_vote_weight`: keep the `CumWeight` with the larger
`cum_weight`. -/
def update_max_vote_weight (max_weight cum_weight : CumWeight) : CumWeight :=
  if max_weight.cum_weight < cum_weight.cum_weight then cum_weight else max_weight

def Grid.insert_signed_proposal (g : Grid B) (signed_proposal : SignedProposal B) :
    Except (CollectionError B) (Option CumWeight) × Grid B :=
  match check_exist g.signed_proposal signed_proposal Capsule.SignedProposal with
  | Except.error e => (Except.error e, g)
  | Except.ok _ => (Except.ok none, { g with signed_proposal := some signed_proposal })

def Grid.insert_signed_pre_vote (g : Grid B) (signed_pre_vote : SignedPreVote) :
    Except (CollectionError B) (Option CumWeight) × Grid B :=
  match check_exist (getA signed_pre_vote.voter g.signed_pre_votes) signed_pre_vote
      Capsule.SignedPreVote with
  | Except.error e => (Except.error e, g)
  | Except.ok _ =>
    let hash := signed_pre_vote.vote.block_hash
    let res := update_vote_weight_map g.pre_vote_vote_weights hash signed_pre_vote.vote_weight
    let cw : CumWeight := ⟨res.1, VoteType.PreVote, signed_pre_vote.vote.round, some hash⟩
    let mx := update_max_vote_weight g.pre_vote_max_vote_weight cw
    (Except.ok (some mx),
      { g with
        pre_vote_vote_weights := res.2
        pre_vote_max_vote_weight := mx
        signed_pre_votes := insertA signed_pre_vote.voter signed_pre_vote g.signed_pre_votes
        pre_vote_sets :=
          insertA hash ((getA hash g.pre_vote_sets).getD [] ++ [signed_pre_vote])
            g.pre_vote_sets })

def Grid.insert_signed_pre_commit (g : Grid B) (signed_pre_commit : SignedPreCommit) :
    Except (CollectionError B) (Option CumWeight) × Grid B :=
  match check_exist (getA signed_pre_commit.voter g.signed_pre_commits) signed_pre_commit
      Capsule.SignedPreCommit with
  | Except.error e => (Except.error e, g)
  | Except.ok _ =>
    let hash := signed_pre_commit.vote.block_hash
    let res := update_vote_weight_map g.pre_commit_vote_weights hash signed_pre_commit.vote_weight
    let cw : CumWeight := ⟨res.1, VoteType.PreCommit, signed_pre_commit.vote.round, some hash⟩
    let mx := update_max_vote_weight g.pre_commit_max_vote_weight cw
    (Except.ok (some mx),
      { g with
        pre_commit_vote_weights := res.2
        pre_commit_max_vote_weight := mx
        signed_pre_commits := insertA signed_pre_commit.voter signed_pre_commit g.signed_pre_commits
        pre_commit_sets :=
          insertA hash ((getA hash g.pre_commit_sets).getD [] ++ [signed_pre_commit])
            g.pre_commit_sets })

def Grid.insert_signed_choke (g : Grid B) (signed_choke : SignedChoke) :
    Except (CollectionError B) (Option CumWeight) × Grid B :=
  match check_exist (getA signed_choke.voter g.signed_chokes) signed_choke
      Capsule.SignedChoke with
  | Except.error e => (Except.error e, g)
  | Except.ok _ =>
    let cum_weight := (g.choke_vote_weight.cum_weight + signed_choke.vote_weight) % u32Size
    let cw : CumWeight := ⟨cum_weight, VoteType.Choke, signed_choke.choke.round, none⟩
    let mx := update_max_vote_weight g.choke_vote_weight cw
    (Except.ok (some mx),
      { g with
        choke_vote_weight := mx
        signed_chokes := insertA signed_choke.voter signed_choke g.signed_chokes })

def Grid.insert_pre_vote_qc (g : Grid B) (pre_vote_qc : PreVoteQC) :
    Except (CollectionError B) (Option CumWeight) × Grid B :=
  match check_exist g.pre_vote_qc pre_vote_qc Capsule.PreVoteQC with
  | Except.error e => (Except.error e, g)
  | Except.ok _ => (Except.ok none, { g with pre_vote_qc := some pre_vote_qc })

def Grid.insert_pre_commit_qc (g : Grid B) (pre_commit_qc : PreCommitQC) :
    Except (CollectionError B) (Option CumWeight) × Grid B :=
  match check_exist g.pre_commit_qc pre_commit_qc Capsule.PreCommitQC with
  | Except.error e => (Except.error e, g)
  | Except.ok _ => (Except.ok none, { g with pre_commit_qc := some pre_commit_qc })

def Grid.insert_choke_qc (g : Grid B) (choke_qc : ChokeQC) :
    Except (CollectionError B) (Option CumWeight) × Grid B :=
  match check_exist g.choke_qc choke_qc Capsule.ChokeQC with
  | Except.error e => (Except.error e, g)
  | Except.ok _ => (Except.ok none, { g with choke_qc := some choke_qc })

def Grid.insert (g : Grid B) (data : Capsule B) :
    Except (CollectionError B) (Option CumWeight) × Grid B :=
  match data with
  | Capsule.SignedProposal signed_proposal => g.insert_signed_proposal signed_proposal
  | Capsule.SignedPreVote signed_pre_vote => g.insert_signed_pre_vote signed_pre_vote
  | Capsule.SignedPreCommit signed_pre_commit => g.insert_signed_pre_commit signed_pre_commit
  | Capsule.SignedChoke signed_choke => g.insert_signed_choke signed_choke
  | Capsule.PreVoteQC pre_vote_qc => g.insert_pre_vote_qc pre_vote_qc
  | Capsule.PreCommitQC pre_commit_qc => g.insert_pre_commit_qc pre_commit_qc
  | Capsule.ChokeQC choke_qc => g.insert_choke_qc choke_qc

/-- `Drawer::insert`: delegate to the (lazily created) grid of `round`,
then fold the returned per-round maximum into the height-level running
maximum of the vote type and return the latter. -/
def Drawer.insert (dr : Drawer B) (round : Round) (data : Capsule B) :
    Except (CollectionError B) (Option CumWeight) × Drawer B :=
  let grid := (getA round dr.collectors).getD default
  match Grid.insert grid data with
  | (Except.error e, g') => (Except.error e, { dr with collectors := insertA round g' dr.collectors })
  | (Except.ok none, g') => (Except.ok none, { dr with collectors := insertA round g' dr.collectors })
  | (Except.ok (some cum_weight), g') =>
    let dr' := { dr with collectors := insertA round g' dr.collectors }
    match cum_weight.vote_type with
    | VoteType.PreVote =>
      let m := update_max_vote_weight dr.pre_vote_max_vote_weight cum_weight
      (Except.ok (some m), { dr' with pre_vote_max_vote_weight := m })
    | VoteType.PreCommit =>
      let m := update_max_vote_weight dr.pre_commit_max_vote_weight cum_weight
      (Except.ok (some m), { dr' with pre_commit_max_vote_weight := m })
    | VoteType.Choke =>
      let m := update_max_vote_weight dr.choke_max_vote_weight cum_weight
      (Except.ok (some m), { dr' with choke_max_vote_weight := m })

/-- `Cabinet::insert`. -/
def Cabinet.insert (c : Cabinet B) (height : Height) (round : Round) (data : Capsule B) :
    Except (CollectionError B) (Option CumWeight) × Cabinet B :=
  let drawer := (getA height c.drawers).getD default
  let res := Drawer.insert drawer round data
  (res.1, ⟨insertA height res.2 c.drawers⟩)

/-- `Cabinet::pop`. -/
def Cabinet.pop (c : Cabinet B) (height : Height) : Option (List (Grid B)) × Cabinet B :=
  match getA height c.drawers with
  | none => (none, c)
  | some drawer =>
    (some (drawer.collectors.map Prod.snd),
      ⟨c.drawers.filter (fun p => !(p.1 = height : Bool))⟩)

/-- `Cabinet::remove_below`: `split_off(&height)` keeps exactly the
drawers with key `≥ height`. -/
def Cabinet.remove_below (c : Cabinet B) (height : Height) : Cabinet B :=
  ⟨c.drawers.filter (fun p => decide (height ≤ p.1))⟩

def Cabinet.get_signed_proposal (c : Cabinet B) (height : Height) (round : Round) :
    Option (SignedProposal B) :=
  match getA height c.drawers with
  | none => none
  | some drawer =>
    match getA round drawer.collectors with
    | none => none
    | some grid => grid.signed_proposal

def Cabinet.get_pre_vote_qc (c : Cabinet B) (height : Height) (round : Round) :
    Option PreVoteQC :=
  match getA height c.drawers with
  | none => none
  | some drawer =>
    match getA round drawer.collectors with
    | none => none
    | some grid => grid.pre_vote_qc

def Cabinet.get_pre_commit_qc (c : Cabinet B) (height : Height) (round : Round) :
    Option PreCommitQC :=
  match getA height c.drawers with
  | none => none
  | some drawer =>
    match getA round drawer.collectors with
    | none => none
    | some grid => grid.pre_commit_qc

def Cabinet.get_choke_qc (c : Cabinet B) (height : Height) (round : Round) :
    Option ChokeQC :=
  match getA height c.drawers with
  | none => none
  | some drawer =>
    match getA round drawer.collectors with
    | none => none
    | some grid => grid.choke_qc

end CabinetOps

/-! ### Timer (src/timer.rs) -/

/-- SMR events consumed by the timer.  The `smr` module is not part of the
sources at hand; the variants and their payloads are reconstructed from the
pattern matches in `src/timer.rs` (heights are called `epoch_id` there). -/
inductive SMREvent : Type
  | NewRoundInfo (epoch_id : Nat) (round : Nat) (lock_round : Option Nat) (lock_proposal : Option Hash)
  | PrevoteVote (epoch_id : Nat) (round : Nat) (epoch_hash : Hash)
  | PrecommitVote (epoch_id : Nat) (round : Nat) (epoch_hash : Hash)
  | Commit (epoch_hash : Hash)
  | Stop
  deriving DecidableEq, Repr

inductive TriggerType : Type
  | Proposal
  | PrevoteQC
  | PrecommitQC
  deriving DecidableEq, Repr

inductive TriggerSource : Type
  | Timer
  deriving DecidableEq, Repr

/-- The timeout trigger the timer hands to the state machine. -/
structure SMRTrigger : Type where
  source : TriggerSource
  hash : Hash
  trigger_type : TriggerType
  round : Option Nat
  epoch_id : Nat
  deriving DecidableEq, Repr

inductive ConsensusError : Type
  | TimerErr (msg : String)
  deriving DecidableEq, Repr

/-- Timer configuration (base durations, in milliseconds). -/
structure TimerConfig : Type where
  interval : Nat
  propose_ratio : Nat
  pre_vote_ratio : Nat
  pre_commit_ratio : Nat
  brake_ratio : Nat
  deriving DecidableEq, Repr

/-- Default configuration: `interval` 3000 ms, ratios 15/10/7/10 in units
of `interval / 10`. -/
instance : Inhabited TimerConfig := ⟨⟨3000, 15, 10, 7, 10⟩⟩

/-- Modelled from the spec: `TimerConfig::get_timeout` lives in
`src/utils/timer_config.rs`, which is not among the sources at hand.  Per
§4.E / §6, the base duration of each phase is `interval * ratio / 10`
milliseconds; events that carry no phase timeout yield an error. -/
def TimerConfig.get_timeout (config : TimerConfig) (event : SMREvent) :
    Except ConsensusError Nat :=
  match event with
  | SMREvent.NewRoundInfo _ _ _ _ => Except.ok (config.interval * config.propose_ratio / 10)
  | SMREvent.PrevoteVote _ _ _ => Except.ok (config.interval * config.pre_vote_ratio / 10)
  | SMREvent.PrecommitVote _ _ _ => Except.ok (config.interval * config.pre_commit_ratio / 10)
  | _ => Except.error (ConsensusError.TimerErr "no timeout for this event")

/-- The mutable part of `Timer`: its current height (`epoch_id`) and round. -/
structure TimerState : Type where
  epoch_id : Nat
  round : Nat
  deriving DecidableEq, Repr

/-- `Timer::set_timer`: update the tracked (epoch, round), look up the base
duration and, for the propose phase only, scale it by
`2 ^ (round as u32, capped at 10)`.  The result is the new timer state and
the delay (in ms) of the scheduled one-shot timeout, `none` when no timer
is set.  The `as u32` cast of the round is the reduction modulo `u32Size`. -/
def set_timer (config : TimerConfig) (st : TimerState) (event : SMREvent) :
    Except ConsensusError (TimerState × Option Nat) :=
  match event with
  | SMREvent.Commit _ => Except.ok (st, none)
  | _ =>
    let st' :=
      match event with
      | SMREvent.NewRoundInfo epoch_id round _ _ =>
        ⟨if epoch_id > st.epoch_id then epoch_id else st.epoch_id, round⟩
      | _ => st
    let is_propose_timer :=
      match event with
      | SMREvent.NewRoundInfo _ _ _ _ => true
      | _ => false
    match config.get_timeout event with
    | Except.error e => Except.error e
    | Except.ok interval =>
      let delay :=
        if is_propose_timer then
          interval * 2 ^ (min (st'.round % u32Size) 10)
        else
          interval
      Except.ok (st', some delay)

/-- `Timer::trigger`: on delivery of an expired timeout, either silently
drop it (`ok none`), or send the corresponding trigger to the state
machine (`ok (some _)`). -/
def Timer.trigger (st : TimerState) (event : SMREvent) :
    Except ConsensusError (Option SMRTrigger) :=
  match event with
  | SMREvent.NewRoundInfo epoch_id round _ _ =>
    if epoch_id < st.epoch_id ∨ round < st.round then
      Except.ok none
    else
      Except.ok (some ⟨TriggerSource.Timer, [], TriggerType.Proposal, none, epoch_id⟩)
  | SMREvent.PrevoteVote epoch_id round _ =>
    if epoch_id < st.epoch_id then
      Except.ok none
    else
      Except.ok (some ⟨TriggerSource.Timer, [], TriggerType.PrevoteQC, some round, epoch_id⟩)
  | SMREvent.PrecommitVote epoch_id round _ =>
    if epoch_id < st.epoch_id then
      Except.ok none
    else
      Except.ok (some ⟨TriggerSource.Timer, [], TriggerType.PrecommitQC, some round, epoch_id⟩)
  | _ => Except.error (ConsensusError.TimerErr "No commit timer")

/-! ### Specification-side observation functions -/

section SpecSide

variable {B : Type} [DecidableEq B]

/-- The drawer stored for a height (`Drawer::default()` when absent, as
lazily created by `entry(height).or_insert_with(Drawer::default)`). -/
def drawerAt (c : Cabinet B) (height : Height) : Drawer B :=
  (getA height c.drawers).getD default

/-- The grid stored for a (height, round). -/
def gridAt (c : Cabinet B) (height : Height) (round : Round) : Grid B :=
  (getA round (drawerAt c height).collectors).getD default

/-- The message already occupying the slot of a grid a capsule would be
stored in: the single proposal / QC field, or the per-voter entry for
signed votes and chokes. -/
def gslot (g : Grid B) : Capsule B → Option (Capsule B)
  | Capsule.SignedProposal _ => g.signed_proposal.map Capsule.SignedProposal
  | Capsule.SignedPreVote sv => (getA sv.voter g.signed_pre_votes).map Capsule.SignedPreVote
  | Capsule.SignedPreCommit sv =>
    (getA sv.voter g.signed_pre_commits).map Capsule.SignedPreCommit
  | Capsule.SignedChoke sc => (getA sc.voter g.signed_chokes).map Capsule.SignedChoke
  | Capsule.PreVoteQC _ => g.pre_vote_qc.map Capsule.PreVoteQC
  | Capsule.PreCommitQC _ => g.pre_commit_qc.map Capsule.PreCommitQC
  | Capsule.ChokeQC _ => g.choke_qc.map Capsule.ChokeQC

/-- The message already occupying the slot a capsule would be stored in at
a (height, round) of the cabinet. -/
def slot (c : Cabinet B) (height : Height) (round : Round) (data : Capsule B) :
    Option (Capsule B) :=
  gslot (gridAt c height round) data

def isVoteCapsule : Capsule B → Bool
  | Capsule.SignedPreVote _ => true
  | Capsule.SignedPreCommit _ => true
  | Capsule.SignedChoke _ => true
  | _ => false

def isQCCapsule : Capsule B → Bool
  | Capsule.PreVoteQC _ => true
  | Capsule.PreCommitQC _ => true
  | Capsule.ChokeQC _ => true
  | _ => false

def voteTypeOf : Capsule B → VoteType
  | Capsule.SignedPreCommit _ => VoteType.PreCommit
  | Capsule.SignedChoke _ => VoteType.Choke
  | _ => VoteType.PreVote

/-- The height-level running-maximum field of a drawer for a vote type. -/
def drawerMaxOf (dr : Drawer B) : VoteType → CumWeight
  | VoteType.PreVote => dr.pre_vote_max_vote_weight
  | VoteType.PreCommit => dr.pre_commit_max_vote_weight
  | VoteType.Choke => dr.choke_max_vote_weight

/-- The vote weight a capsule contributes (0 for proposals and QCs). -/
def capsuleWeight : Capsule B → Weight
  | Capsule.SignedPreVote sv => sv.vote_weight
  | Capsule.SignedPreCommit sv => sv.vote_weight
  | Capsule.SignedChoke sc => sc.vote_weight
  | _ => 0

/-- The cumulative weight a grid currently tracks for a
(vote type, block hash) key: the per-hash accumulator for pre-votes and
pre-commits, the running choke weight for chokes (absent entries count
0). -/
def gtracked (g : Grid B) : VoteType → Hash → Weight
  | VoteType.PreVote, hash => (getA hash g.pre_vote_vote_weights).getD 0
  | VoteType.PreCommit, hash => (getA hash g.pre_commit_vote_weights).getD 0
  | VoteType.Choke, _ => g.choke_vote_weight.cum_weight

/-- The cumulative weight the cabinet currently tracks for a
(height, round, vote type, block hash) key. -/
def tracked (c : Cabinet B) (height : Height) (round : Round) (vt : VoteType)
    (hash : Hash) : Weight :=
  gtracked (gridAt c height round) vt hash

/-- The maximum cumulative weight the cabinet reports for a height and
vote type (the drawer-level running maximum returned by `insert`). -/
def reportedMax (c : Cabinet B) (height : Height) : VoteType → Weight
  | VoteType.PreVote => (drawerAt c height).pre_vote_max_vote_weight.cum_weight
  | VoteType.PreCommit => (drawerAt c height).pre_commit_max_vote_weight.cum_weight
  | VoteType.Choke => (drawerAt c height).choke_max_vote_weight.cum_weight

/-- Maximum of `f` over the values of an association list (0 if empty). -/
def valsMax {K V : Type} (f : V → Nat) : AListM K V → Nat :=
  List.foldr (fun p acc => max (f p.2) acc) 0

/-- Sum of `f` over the values of an association list. -/
def valsSum {K V : Type} (f : V → Nat) : AListM K V → Nat :=
  List.foldr (fun p acc => f p.2 + acc) 0

/-- The specification-level cumulative weight accumulated in a grid for a
vote type: the largest per-hash accumulated weight for pre-votes and
pre-commits, the total weight of the stored chokes for chokes. -/
def gridTypeMax (vt : VoteType) (g : Grid B) : Nat :=
  match vt with
  | VoteType.PreVote => valsMax id g.pre_vote_vote_weights
  | VoteType.PreCommit => valsMax id g.pre_commit_vote_weights
  | VoteType.Choke => valsSum SignedChoke.vote_weight g.signed_chokes

/-- The specification-level maximum cumulative weight for a vote type at
exactly one (height, round). -/
def roundMax (c : Cabinet B) (height : Height) (round : Round) (vt : VoteType) : Nat :=
  gridTypeMax vt (gridAt c height round)

/-- The specification-level maximum cumulative weight for a vote type
across all rounds of a height. -/
def heightMax (c : Cabinet B) (height : Height) (vt : VoteType) : Nat :=
  valsMax (gridTypeMax vt) (drawerAt c height).collectors

/-- The block hash a vote capsule votes for ([] for chokes, whose
accumulator is not keyed by hash). -/
def voteHashOf : Capsule B → Hash
  | Capsule.SignedPreVote sv => sv.vote.block_hash
  | Capsule.SignedPreCommit sv => sv.vote.block_hash
  | _ => []

/-- Grid consistency: the running-maximum fields agree with the maxima /
sums of the underlying stores, and carry the right vote type once
positive. -/
def WFGrid (g : Grid B) : Prop :=
  g.pre_vote_max_vote_weight.cum_weight = valsMax id g.pre_vote_vote_weights ∧
  (1 ≤ g.pre_vote_max_vote_weight.cum_weight →
    g.pre_vote_max_vote_weight.vote_type = VoteType.PreVote) ∧
  g.pre_commit_max_vote_weight.cum_weight = valsMax id g.pre_commit_vote_weights ∧
  (1 ≤ g.pre_commit_max_vote_weight.cum_weight →
    g.pre_commit_max_vote_weight.vote_type = VoteType.PreCommit) ∧
  g.choke_vote_weight.cum_weight = valsSum SignedChoke.vote_weight g.signed_chokes ∧
  (1 ≤ g.choke_vote_weight.cum_weight →
    g.choke_vote_weight.vote_type = VoteType.Choke)

/-- Drawer consistency: grids are consistent and the height-level
running-maximum fields are the maxima of the per-round values. -/
def WFDrawer (dr : Drawer B) : Prop :=
  (∀ p ∈ dr.collectors, WFGrid p.2) ∧
  dr.pre_vote_max_vote_weight.cum_weight = valsMax (gridTypeMax VoteType.PreVote) dr.collectors ∧
  (1 ≤ dr.pre_vote_max_vote_weight.cum_weight →
    dr.pre_vote_max_vote_weight.vote_type = VoteType.PreVote) ∧
  dr.pre_commit_max_vote_weight.cum_weight
      = valsMax (gridTypeMax VoteType.PreCommit) dr.collectors ∧
  (1 ≤ dr.pre_commit_max_vote_weight.cum_weight →
    dr.pre_commit_max_vote_weight.vote_type = VoteType.PreCommit) ∧
  dr.choke_max_vote_weight.cum_weight = valsMax (gridTypeMax VoteType.Choke) dr.collectors ∧
  (1 ≤ dr.choke_max_vote_weight.cum_weight →
    dr.choke_max_vote_weight.vote_type = VoteType.Choke)

/-- Cabinet consistency (holds for every cabinet built by inserts of
positive, non-overflowing weights; the empty cabinet trivially so). -/
def WFCabinet (c : Cabinet B) : Prop :=
  ∀ p ∈ c.drawers, WFDrawer p.2

instance (g : Grid B) : Decidable (WFGrid g) := by unfold WFGrid; infer_instance

instance (dr : Drawer B) : Decidable (WFDrawer dr) := by unfold WFDrawer; infer_instance

instance (c : Cabinet B) : Decidable (WFCabinet c) := by unfold WFCabinet; infer_instance

end SpecSide

/-- When `Timer::trigger` drops a delivered timeout as stale: for the
propose phase, when its height or its round is below the timer's current
one; for the pre-vote and pre-commit phases, only when its height is below
the timer's current height. -/
def stale (st : TimerState) : SMREvent → Bool
  | SMREvent.NewRoundInfo epoch_id round _ _ =>
    decide (epoch_id < st.epoch_id) || decide (round < st.round)
  | SMREvent.PrevoteVote epoch_id _ _ => decide (epoch_id < st.epoch_id)
  | SMREvent.PrecommitVote epoch_id _ _ => decide (epoch_id < st.epoch_id)
  | _ => false

deriving instance DecidableEq for Except

/-! ### Abstract per-height protocol model for the agreement property

Modelled from the spec: the SMR state machine and the driver are not among
the sources at hand (only the cabinet, timer and types are), so the
behaviour of an authority at one height is taken from the spec's words
(§3 data model and invariants, §4.D transitions and lock invariants, §8
invariants 3 and 7).  Messages are per-authority predicates; weights,
quorums and the `floor(2*total/3) + 1` threshold follow §3/§4.C.  The
empty block hash is `[]` (`Hash::default()`). -/

/-- Modelled from the spec: one height of the protocol, as observed from
outside — which authorities exist with which vote weights, which are
correct, and which pre-votes, pre-commits and commits each authority ever
signs at each round of this height. -/
structure ConsensusWorld : Type where
  auths : Finset Address
  w : Address → Nat
  correct : Address → Bool
  prevote : Address → Round → Hash → Prop
  precommit : Address → Round → Hash → Prop
  committed : Address → Round → Hash → Prop

def totalWeight (W : ConsensusWorld) : Nat := ∑ a ∈ W.auths, W.w a

/-- The combined vote weight of the faulty authorities. -/
def byzWeight (W : ConsensusWorld) : Nat :=
  ∑ a ∈ W.auths.filter (fun a => W.correct a = false), W.w a

/-- Modelled from the spec: `threshold(H) = floor(2*total_weight(H)/3) + 1`. -/
def threshold (W : ConsensusWorld) : Nat := 2 * totalWeight W / 3 + 1

/-- A set of authorities whose combined vote weight reaches the BFT
threshold. -/
def QuorumW (W : ConsensusWorld) (S : Finset Address) : Prop :=
  S ⊆ W.auths ∧ threshold W ≤ ∑ a ∈ S, W.w a

/-- A pre-vote QC ("polka") for `h` at round `r` exists: a quorum all of
whose members signed that pre-vote. -/
def PolkaAt (W : ConsensusWorld) (r : Round) (h : Hash) : Prop :=
  ∃ S, QuorumW W S ∧ ∀ a ∈ S, W.prevote a r h

/-- A pre-commit QC for `h` at round `r` exists. -/
def PrecommitQCAt (W : ConsensusWorld) (r : Round) (h : Hash) : Prop :=
  ∃ S, QuorumW W S ∧ ∀ a ∈ S, W.precommit a r h

/-- Modelled from the spec: the per-height protocol assumptions.
1. fault bound: at most one third of the voting power is Byzantine (§1);
2. a correct authority commits only a non-empty hash backed by a
   pre-commit QC (§4.D.4, §3 QC validity);
3. a correct authority casts at most one pre-vote per round (§8 inv. 3);
4. a correct authority pre-commits a non-empty hash only after a polka for
   it at the same round (§4.D.3, §3 invariants);
5. lock: a correct authority that pre-committed non-empty `x` at round `r`
   pre-votes a different non-empty `y` at a later round `r'` only if a
   polka for `y` exists at some round `s` with `r ≤ s < r'` — the
   proposal's carried lock, which must outrank the local lock and be from
   an earlier round than `r'` (§4.D.2, §4.D lock invariants, §8 inv. 7). -/
def SafeWorld (W : ConsensusWorld) : Prop :=
  3 * byzWeight W ≤ totalWeight W
  ∧ (∀ a r h, W.correct a = true → W.committed a r h → h ≠ [] ∧ PrecommitQCAt W r h)
  ∧ (∀ a r h h', W.correct a = true → W.prevote a r h → W.prevote a r h' → h = h')
  ∧ (∀ a r h, W.correct a = true → W.precommit a r h → h ≠ [] → PolkaAt W r h)
  ∧ (∀ a r r' x y, W.correct a = true → W.precommit a r x → x ≠ [] →
      W.prevote a r' y → r < r' → y ≠ x → y ≠ [] →
      ∃ s, r ≤ s ∧ s < r' ∧ PolkaAt W s y)

/-- A concrete four-authority height in which everyone is correct and all
four pre-vote, pre-commit and (the first two) commit block hash `[1]` at
round 0. -/
def exampleWorld : ConsensusWorld where
  auths := {[0], [1], [2], [3]}
  w := fun _ => 1
  correct := fun _ => true
  prevote := fun _ r h => r = 0 ∧ h = [1]
  precommit := fun _ r h => r = 0 ∧ h = [1]
  committed := fun a r h => r = 0 ∧ h = [1] ∧ (a = [0] ∨ a = [1])

/-! ### Lemmas about cabinet insertion -/

section InsertLemmas

variable {B : Type} [DecidableEq B]

theorem getA_nil {K V : Type} [DecidableEq K] (k : K) : getA k ([] : AListM K V) = none := rfl

theorem default_grid_signed_proposal : (default : Grid B).signed_proposal = none := rfl

theorem default_grid_signed_pre_votes : (default : Grid B).signed_pre_votes = [] := rfl

theorem default_grid_signed_pre_commits : (default : Grid B).signed_pre_commits = [] := rfl

theorem default_grid_signed_chokes : (default : Grid B).signed_chokes = [] := rfl

theorem default_grid_pre_vote_qc : (default : Grid B).pre_vote_qc = none := rfl

theorem default_grid_pre_commit_qc : (default : Grid B).pre_commit_qc = none := rfl

theorem default_grid_choke_qc : (default : Grid B).choke_qc = none := rfl

theorem default_drawer_collectors : (default : Drawer B).collectors = [] := rfl

theorem cabinet_insert_fst (c : Cabinet B) (hh : Height) (r : Round) (d : Capsule B) :
    (Cabinet.insert c hh r d).1 = (Drawer.insert (drawerAt c hh) r d).1 := rfl

theorem cabinet_insert_snd (c : Cabinet B) (hh : Height) (r : Round) (d : Capsule B) :
    (Cabinet.insert c hh r d).2
      = ⟨insertA hh (Drawer.insert (drawerAt c hh) r d).2 c.drawers⟩ := rfl

theorem drawer_grid_eq (c : Cabinet B) (hh : Height) (r : Round) :
    (getA r (drawerAt c hh).collectors).getD default = gridAt c hh r := rfl

/-- A conflicting slot makes `Grid::insert` fail with the corresponding
error. -/
theorem grid_insert_conflict (g : Grid B) (d e : Capsule B) (hs : gslot g d = some e) :
    (Grid.insert g d).1
      = if e = d then Except.error (CollectionError.AlreadyExists d)
        else Except.error (CollectionError.InsertDiff e d) := by
  cases d <;>
    · simp only [gslot] at hs
      obtain ⟨x, hx, he⟩ := Option.map_eq_some'.mp hs
      subst he
      rename_i data
      by_cases hxd : x = data
      · subst hxd
        simp [Grid.insert, Grid.insert_signed_proposal, Grid.insert_signed_pre_vote,
          Grid.insert_signed_pre_commit, Grid.insert_signed_choke, Grid.insert_pre_vote_qc,
          Grid.insert_pre_commit_qc, Grid.insert_choke_qc, check_exist, hx]
      · simp [Grid.insert, Grid.insert_signed_proposal, Grid.insert_signed_pre_vote,
          Grid.insert_signed_pre_commit, Grid.insert_signed_choke, Grid.insert_pre_vote_qc,
          Grid.insert_pre_commit_qc, Grid.insert_choke_qc, check_exist, hx, hxd]

/-- A free slot makes `Grid::insert` of a proposal or QC succeed with
`none`. -/
theorem grid_insert_ok_none (g : Grid B) (d : Capsule B) (hs : gslot g d = none)
    (hv : isVoteCapsule d = false) : (Grid.insert g d).1 = Except.ok none := by
  cases d <;> simp only [isVoteCapsule] at hv <;>
    first
      | exact Bool.noConfusion hv
      | (simp only [gslot, Option.map_eq_none'] at hs
         simp [Grid.insert, Grid.insert_signed_proposal, Grid.insert_pre_vote_qc,
           Grid.insert_pre_commit_qc, Grid.insert_choke_qc, check_exist, hs])

/-- A free slot makes `Grid::insert` of a signed vote or choke succeed
with a cumulative weight. -/
theorem grid_insert_ok_some (g : Grid B) (d : Capsule B) (hs : gslot g d = none)
    (hv : isVoteCapsule d = true) : ∃ cw, (Grid.insert g d).1 = Except.ok (some cw) := by
  cases d with
  | SignedPreVote sv =>
    simp only [gslot, Option.map_eq_none'] at hs
    refine ⟨update_max_vote_weight g.pre_vote_max_vote_weight
      ⟨(update_vote_weight_map g.pre_vote_vote_weights sv.vote.block_hash sv.vote_weight).1,
        VoteType.PreVote, sv.vote.round, some sv.vote.block_hash⟩, ?_⟩
    simp only [Grid.insert, Grid.insert_signed_pre_vote, hs, check_exist]
  | SignedPreCommit sv =>
    simp only [gslot, Option.map_eq_none'] at hs
    refine ⟨update_max_vote_weight g.pre_commit_max_vote_weight
      ⟨(update_vote_weight_map g.pre_commit_vote_weights sv.vote.block_hash sv.vote_weight).1,
        VoteType.PreCommit, sv.vote.round, some sv.vote.block_hash⟩, ?_⟩
    simp only [Grid.insert, Grid.insert_signed_pre_commit, hs, check_exist]
  | SignedChoke sc =>
    simp only [gslot, Option.map_eq_none'] at hs
    refine ⟨update_max_vote_weight g.choke_vote_weight
      ⟨(g.choke_vote_weight.cum_weight + sc.vote_weight) % u32Size,
        VoteType.Choke, sc.choke.round, none⟩, ?_⟩
    simp only [Grid.insert, Grid.insert_signed_choke, hs, check_exist]
  | SignedProposal sp => exact Bool.noConfusion hv
  | PreVoteQC qc => exact Bool.noConfusion hv
  | PreCommitQC qc => exact Bool.noConfusion hv
  | ChokeQC qc => exact Bool.noConfusion hv

/-- On failure, `Grid::insert` leaves the grid unchanged. -/
theorem grid_insert_error_snd (g : Grid B) (d : Capsule B) (e : CollectionError B)
    (hg : (Grid.insert g d).1 = Except.error e) : (Grid.insert g d).2 = g := by
  cases d <;>
    · rename_i data
      simp only [Grid.insert, Grid.insert_signed_proposal, Grid.insert_signed_pre_vote,
        Grid.insert_signed_pre_commit, Grid.insert_signed_choke, Grid.insert_pre_vote_qc,
        Grid.insert_pre_commit_qc, Grid.insert_choke_qc] at hg ⊢
      rcases hc : check_exist (B := B) _ data _ with e' | u
      · rfl
      · rw [hc] at hg
        simp at hg

/-- `Grid::insert` into the freshly created default grid never fails. -/
theorem grid_insert_default_fst (d : Capsule B) (e : CollectionError B) :
    (Grid.insert (default : Grid B) d).1 ≠ Except.error e := by
  cases d <;>
    simp [Grid.insert, Grid.insert_signed_proposal, Grid.insert_signed_pre_vote,
      Grid.insert_signed_pre_commit, Grid.insert_signed_choke, Grid.insert_pre_vote_qc,
      Grid.insert_pre_commit_qc, Grid.insert_choke_qc, check_exist,
      default_grid_signed_proposal, default_grid_signed_pre_votes,
      default_grid_signed_pre_commits, default_grid_signed_chokes,
      default_grid_pre_vote_qc, default_grid_pre_commit_qc, default_grid_choke_qc, getA_nil]

/-- A failed `Drawer::insert` reflects a failed `Grid::insert`. -/
theorem drawer_insert_error_inv {dr : Drawer B} {r : Round} {d : Capsule B}
    {e : CollectionError B} (h : (Drawer.insert dr r d).1 = Except.error e) :
    (Grid.insert ((getA r dr.collectors).getD default) d).1 = Except.error e := by
  simp only [Drawer.insert] at h
  rcases hgi : Grid.insert ((getA r dr.collectors).getD default) d with ⟨res, g'⟩
  rw [hgi] at h
  cases res with
  | error e' => simpa using h
  | ok o =>
    exfalso
    cases o with
    | none => simp at h
    | some cw => cases hvt : cw.vote_type <;> simp [hvt] at h

/-- A successful `Grid::insert` with no weight yields `Ok(None)` at the
drawer. -/
theorem drawer_insert_fst_ok_none {dr : Drawer B} {r : Round} {d : Capsule B}
    (hg : (Grid.insert ((getA r dr.collectors).getD default) d).1 = Except.ok none) :
    (Drawer.insert dr r d).1 = Except.ok none := by
  simp only [Drawer.insert]
  rcases hgi : Grid.insert ((getA r dr.collectors).getD default) d with ⟨res, g'⟩
  rw [hgi] at hg
  cases res with
  | error e' => simp at hg
  | ok o =>
    cases o with
    | none => simp
    | some cw => simp at hg

/-- A successful `Grid::insert` with a weight yields `Ok(Some _)` at the
drawer. -/
theorem drawer_insert_fst_ok_some {dr : Drawer B} {r : Round} {d : Capsule B} {cw : CumWeight}
    (hg : (Grid.insert ((getA r dr.collectors).getD default) d).1 = Except.ok (some cw)) :
    ∃ m, (Drawer.insert dr r d).1 = Except.ok (some m) := by
  simp only [Drawer.insert]
  rcases hgi : Grid.insert ((getA r dr.collectors).getD default) d with ⟨res, g'⟩
  rw [hgi] at hg
  cases res with
  | error e' => simp at hg
  | ok o =>
    cases o with
    | none => simp at hg
    | some cw' =>
      cases hvt : cw'.vote_type with
      | PreVote => exact ⟨update_max_vote_weight dr.pre_vote_max_vote_weight cw', by simp [hvt]⟩
      | PreCommit =>
        exact ⟨update_max_vote_weight dr.pre_commit_max_vote_weight cw', by simp [hvt]⟩
      | Choke => exact ⟨update_max_vote_weight dr.choke_max_vote_weight cw', by simp [hvt]⟩

/-- A failed `Grid::insert` propagates its error through
`Drawer::insert`. -/
theorem drawer_insert_fst_error {dr : Drawer B} {r : Round} {d : Capsule B}
    {e : CollectionError B}
    (hg : (Grid.insert ((getA r dr.collectors).getD default) d).1 = Except.error e) :
    (Drawer.insert dr r d).1 = Except.error e := by
  simp only [Drawer.insert]
  rcases hgi : Grid.insert ((getA r dr.collectors).getD default) d with ⟨res, g'⟩
  rw [hgi] at hg
  cases res with
  | error e' =>
    simp only at hg
    simp [hg]
  | ok o =>
    exfalso
    cases o <;> simp at hg

/-- On failure, `Drawer::insert` only re-stores the untouched grid. -/
theorem drawer_insert_error_snd {dr : Drawer B} {r : Round} {d : Capsule B}
    {e : CollectionError B} (h : (Drawer.insert dr r d).1 = Except.error e) :
    (Drawer.insert dr r d).2
      = { dr with
          collectors :=
            insertA r ((Grid.insert ((getA r dr.collectors).getD default) d).2)
              dr.collectors } := by
  simp only [Drawer.insert]
  rcases hgi : Grid.insert ((getA r dr.collectors).getD default) d with ⟨res, g'⟩
  have h' : res = Except.error e := by
    simp only [Drawer.insert] at h
    rw [hgi] at h
    cases res with
    | error e' => simpa using h
    | ok o =>
      exfalso
      cases o with
      | none => simp at h
      | some cw => cases hvt : cw.vote_type <;> simp [hvt] at h
  subst h'
  simp

/-- On failure, `Cabinet::insert` leaves the cabinet exactly as it was. -/
theorem cabinet_insert_error_preserves (c : Cabinet B) (hh : Height) (r : Round)
    (d : Capsule B) (e : CollectionError B)
    (herr : (Cabinet.insert c hh r d).1 = Except.error e) :
    (Cabinet.insert c hh r d).2 = c := by
  have hdr : (Drawer.insert (drawerAt c hh) r d).1 = Except.error e := by
    rw [← cabinet_insert_fst]; exact herr
  have hg := drawer_insert_error_inv hdr
  have hgrid_some :
      getA r (drawerAt c hh).collectors
        = some ((getA r (drawerAt c hh).collectors).getD default) := by
    rcases hx : getA r (drawerAt c hh).collectors with _ | g
    · exfalso
      rw [hx] at hg
      exact grid_insert_default_fst d e (by simpa using hg)
    · simp [hx]
  have hdr_snd : (Drawer.insert (drawerAt c hh) r d).2 = drawerAt c hh := by
    rw [drawer_insert_error_snd hdr, grid_insert_error_snd _ d e hg,
      insertA_of_getA_eq hgrid_some]
  have hdrawer_some : getA hh c.drawers = some (drawerAt c hh) := by
    rcases hx : getA hh c.drawers with _ | dr0
    · exfalso
      have hdef : drawerAt c hh = default := by simp [drawerAt, hx]
      rw [hdef, default_drawer_collectors, getA_nil] at hg
      exact grid_insert_default_fst d e (by simpa using hg)
    · simp [drawerAt, hx]
  rw [cabinet_insert_snd, hdr_snd, insertA_of_getA_eq hdrawer_some]

/-- A conflicting slot makes `Cabinet::insert` fail with the
corresponding error. -/
theorem cabinet_insert_conflict (c : Cabinet B) (hh : Height) (r : Round)
    (d e : Capsule B) (hs : slot c hh r d = some e) :
    (Cabinet.insert c hh r d).1
      = if e = d then Except.error (CollectionError.AlreadyExists d)
        else Except.error (CollectionError.InsertDiff e d) := by
  have hg := grid_insert_conflict (gridAt c hh r) d e hs
  rw [cabinet_insert_fst]
  by_cases hed : e = d
  · rw [if_pos hed] at hg ⊢
    exact drawer_insert_fst_error hg
  · rw [if_neg hed] at hg ⊢
    exact drawer_insert_fst_error hg

theorem get_signed_proposal_gridAt {B : Type} [DecidableEq B] (c : Cabinet B)
    (hh : Height) (r : Round) :
    Cabinet.get_signed_proposal c hh r = (gridAt c hh r).signed_proposal := by
  unfold Cabinet.get_signed_proposal gridAt drawerAt
  rcases getA hh c.drawers with _ | dr
  · rfl
  · simp only [Option.getD_some]
    rcases getA r dr.collectors with _ | g
    · rfl
    · rfl

end InsertLemmas

/-! ### C9: remove_below -/

/-- C9: `remove_below h` removes exactly the drawers of heights strictly
below `h`; every drawer at height `≥ h`, with all of its grids, stored
messages, weights and QCs, is unchanged. -/
theorem C9_remove_below {B : Type} [DecidableEq B] (c : Cabinet B) (height k : Height) :
    getA k (c.remove_below height).drawers
      = if k < height then none else getA k c.drawers := by
  unfold Cabinet.remove_below
  rw [getA_filter_key (fun n => decide (height ≤ n)) k c.drawers]
  by_cases h : height ≤ k
  · simp [h, Nat.not_lt.mpr h]
  · simp [h, Nat.lt_of_not_le h]

/-! ### C8: propose-phase exponential backoff -/

/-- C8 counterexample: the source casts the `u64` round to `u32` before
applying the cap (`src/timer.rs:136`), so at round `2^32` the propose
delay carries factor `2^0 = 1` and not the claimed `2^min(r,10) = 2^10`
(shown with the default configuration, whose propose duration is
`3000 * 15 / 10 = 4500` ms). -/
theorem C8_counterexample :
    set_timer default ⟨0, 0⟩ (SMREvent.NewRoundInfo 1 (2 ^ 32) none none)
      = Except.ok (⟨1, 2 ^ 32⟩, some 4500)
    ∧ 4500 ≠ 4500 * 2 ^ (min (2 ^ 32) 10) := by
  constructor
  · decide
  · decide

/-- C8 (amended): the propose delay is the configured propose duration
times `2 ^ min(r mod 2^32, 10)` — the round is truncated to `u32` before
the cap, so the `2^10` cap holds for all `10 ≤ r < 2^32` but not beyond —
and the pre-vote and pre-commit delays carry no exponential factor. -/
theorem C8_amended_backoff (config : TimerConfig) (st : TimerState) (epoch round : Nat)
    (lr : Option Nat) (lp : Option Hash) (hsh : Hash) :
    set_timer config st (SMREvent.NewRoundInfo epoch round lr lp)
      = Except.ok (⟨max st.epoch_id epoch, round⟩,
          some (config.interval * config.propose_ratio / 10 * 2 ^ (min (round % u32Size) 10)))
    ∧ set_timer config st (SMREvent.PrevoteVote epoch round hsh)
      = Except.ok (st, some (config.interval * config.pre_vote_ratio / 10))
    ∧ set_timer config st (SMREvent.PrecommitVote epoch round hsh)
      = Except.ok (st, some (config.interval * config.pre_commit_ratio / 10)) := by
  refine ⟨?_, rfl, rfl⟩
  have hmax : (if epoch > st.epoch_id then epoch else st.epoch_id) = max st.epoch_id epoch := by
    by_cases hx : epoch > st.epoch_id <;> simp [hx] <;> omega
  simp [set_timer, TimerConfig.get_timeout, hmax]

/-! ### C4: stale timeout deliveries -/

/-- C4 counterexample: with the timer at (height 1, round 5), a delivered
pre-vote timeout tagged (height 1, round 3) — strictly below the current
(height, round) — is not dropped: a trigger is sent to the state machine
(`src/timer.rs:164-171` checks only the height for pre-vote timeouts). -/
theorem C4_counterexample :
    (3 < 5) ∧
    Timer.trigger ⟨1, 5⟩ (SMREvent.PrevoteVote 1 3 [])
      = Except.ok (some ⟨TriggerSource.Timer, [], TriggerType.PrevoteQC, some 3, 1⟩) := by
  decide

/-- C4 (amended): a delivered timeout is silently dropped (no trigger is
sent) when it is stale in the per-phase sense of the code: for the propose
phase, when its height or its round is below the timer's current one; for
the pre-vote and pre-commit phases, only when its height is strictly below
the timer's current height.  A pre-vote or pre-commit timeout of the
current height with a stale round is not dropped. -/
theorem C4_amended_stale_drop (st : TimerState) (event : SMREvent)
    (h : stale st event = true) : Timer.trigger st event = Except.ok none := by
  cases event with
  | NewRoundInfo epoch_id round lr lp =>
    simp only [stale, Bool.or_eq_true, decide_eq_true_eq] at h
    simp [Timer.trigger, h]
  | PrevoteVote epoch_id round hsh =>
    simp only [stale, decide_eq_true_eq] at h
    simp [Timer.trigger, h, Or.inl h]
  | PrecommitVote epoch_id round hsh =>
    simp only [stale, decide_eq_true_eq] at h
    simp [Timer.trigger, h, Or.inl h]
  | Commit hsh => simp [stale] at h
  | Stop => simp [stale] at h

/-- Witness for C4 (amended): a concrete stale pre-vote timeout is
dropped. -/
theorem C4_amended_stale_drop_witness :
    stale ⟨2, 3⟩ (SMREvent.PrevoteVote 1 9 []) = true
      ∧ Timer.trigger ⟨2, 3⟩ (SMREvent.PrevoteVote 1 9 []) = Except.ok none :=
  ⟨by decide, C4_amended_stale_drop ⟨2, 3⟩ (SMREvent.PrevoteVote 1 9 []) (by decide)⟩

/-! ### C2: the insert contract -/

/-- C2: the result contract of `Cabinet::insert`: when the target slot of
the capsule already holds the byte-identical message the insert fails with
`AlreadyExists`, when it holds a different message it fails with
`InsertDiff (stored, new)`; on a free slot, inserting a proposal or any QC
returns `Ok(None)` while inserting a signed pre-vote, pre-commit or choke
returns `Ok(Some cum_weight)`. -/
theorem C2_insert_contract {B : Type} [DecidableEq B] (c : Cabinet B) (hh : Height)
    (r : Round) (d : Capsule B) :
    match slot c hh r d with
    | some e =>
      (Cabinet.insert c hh r d).1
        = if e = d then Except.error (CollectionError.AlreadyExists d)
          else Except.error (CollectionError.InsertDiff e d)
    | none =>
      if isVoteCapsule d then ∃ cw, (Cabinet.insert c hh r d).1 = Except.ok (some cw)
      else (Cabinet.insert c hh r d).1 = Except.ok none := by
  rcases hs : slot c hh r d with _ | e
  · cases hv : isVoteCapsule d
    · show (Cabinet.insert c hh r d).1 = Except.ok none
      rw [cabinet_insert_fst]
      exact drawer_insert_fst_ok_none (grid_insert_ok_none _ d hs hv)
    · show ∃ cw, (Cabinet.insert c hh r d).1 = Except.ok (some cw)
      obtain ⟨cw, hcw⟩ := grid_insert_ok_some (gridAt c hh r) d hs hv
      obtain ⟨m, hm⟩ :=
        @drawer_insert_fst_ok_some B _ (drawerAt c hh) r d cw hcw
      exact ⟨m, by rw [cabinet_insert_fst]; exact hm⟩
  · exact cabinet_insert_conflict c hh r d e hs

/-! ### C6: failed inserts do not change the cabinet -/

/-- C6: whenever `Cabinet::insert` fails — `AlreadyExists` on a
byte-identical re-insert or `InsertDiff` on a conflicting message — the
cabinet state is exactly what it was before the call (in particular the
first-stored message is retained). -/
theorem C6_error_state_unchanged {B : Type} [DecidableEq B] (c : Cabinet B) (hh : Height)
    (r : Round) (d : Capsule B) (e : CollectionError B)
    (herr : (Cabinet.insert c hh r d).1 = Except.error e) :
    (Cabinet.insert c hh r d).2 = c :=
  cabinet_insert_error_preserves c hh r d e herr

/-- Witness for C6: re-inserting a byte-identical pre-vote QC fails with
`AlreadyExists` and the cabinet is unchanged. -/
theorem C6_error_state_unchanged_witness :
    (Cabinet.insert
        (Cabinet.insert (⟨[]⟩ : Cabinet Unit) 1 0
            (Capsule.PreVoteQC ⟨⟨1, 0, [1]⟩, ⟨[2], [3]⟩⟩)).2
        1 0 (Capsule.PreVoteQC ⟨⟨1, 0, [1]⟩, ⟨[2], [3]⟩⟩)).1
      = Except.error (CollectionError.AlreadyExists
          (Capsule.PreVoteQC ⟨⟨1, 0, [1]⟩, ⟨[2], [3]⟩⟩))
    ∧ (Cabinet.insert
        (Cabinet.insert (⟨[]⟩ : Cabinet Unit) 1 0
            (Capsule.PreVoteQC ⟨⟨1, 0, [1]⟩, ⟨[2], [3]⟩⟩)).2
        1 0 (Capsule.PreVoteQC ⟨⟨1, 0, [1]⟩, ⟨[2], [3]⟩⟩)).2
      = (Cabinet.insert (⟨[]⟩ : Cabinet Unit) 1 0
          (Capsule.PreVoteQC ⟨⟨1, 0, [1]⟩, ⟨[2], [3]⟩⟩)).2 :=
  ⟨by decide,
    C6_error_state_unchanged _ 1 0 _
      (CollectionError.AlreadyExists (Capsule.PreVoteQC ⟨⟨1, 0, [1]⟩, ⟨[2], [3]⟩⟩))
      (by decide)⟩

/-! ### C7: QC uniqueness -/

/-- C7: for each (height, round) and each QC phase the cabinet stores at
most one QC: once a QC occupies the slot, inserting a distinct QC of the
same phase there fails with `InsertDiff` and the stored QC (indeed the
whole cabinet) is unchanged. -/
theorem C7_qc_unique {B : Type} [DecidableEq B] (c : Cabinet B) (hh : Height) (r : Round)
    (d e : Capsule B) (hqc : isQCCapsule d = true) (hs : slot c hh r d = some e)
    (hne : e ≠ d) :
    (Cabinet.insert c hh r d).1 = Except.error (CollectionError.InsertDiff e d)
    ∧ (Cabinet.insert c hh r d).2 = c
    ∧ slot (Cabinet.insert c hh r d).2 hh r d = some e := by
  have h1 := cabinet_insert_conflict c hh r d e hs
  rw [if_neg hne] at h1
  have h2 := cabinet_insert_error_preserves c hh r d _ h1
  exact ⟨h1, h2, by rw [h2]; exact hs⟩

/-- Witness for C7: a second, different choke QC at the same
(height, round) is rejected and the stored one survives. -/
theorem C7_qc_unique_witness :
    (isQCCapsule (Capsule.ChokeQC (B := Unit) ⟨⟨2, 1⟩, ⟨[9], [2]⟩⟩) = true
      ∧ slot (Cabinet.insert (⟨[]⟩ : Cabinet Unit) 2 1
            (Capsule.ChokeQC ⟨⟨2, 1⟩, ⟨[1], [2]⟩⟩)).2 2 1
          (Capsule.ChokeQC ⟨⟨2, 1⟩, ⟨[9], [2]⟩⟩)
        = some (Capsule.ChokeQC ⟨⟨2, 1⟩, ⟨[1], [2]⟩⟩))
    ∧ ((Cabinet.insert
          (Cabinet.insert (⟨[]⟩ : Cabinet Unit) 2 1
              (Capsule.ChokeQC ⟨⟨2, 1⟩, ⟨[1], [2]⟩⟩)).2
          2 1 (Capsule.ChokeQC ⟨⟨2, 1⟩, ⟨[9], [2]⟩⟩)).1
        = Except.error (CollectionError.InsertDiff
            (Capsule.ChokeQC ⟨⟨2, 1⟩, ⟨[1], [2]⟩⟩) (Capsule.ChokeQC ⟨⟨2, 1⟩, ⟨[9], [2]⟩⟩))
      ∧ (Cabinet.insert
          (Cabinet.insert (⟨[]⟩ : Cabinet Unit) 2 1
              (Capsule.ChokeQC ⟨⟨2, 1⟩, ⟨[1], [2]⟩⟩)).2
          2 1 (Capsule.ChokeQC ⟨⟨2, 1⟩, ⟨[9], [2]⟩⟩)).2
        = (Cabinet.insert (⟨[]⟩ : Cabinet Unit) 2 1
            (Capsule.ChokeQC ⟨⟨2, 1⟩, ⟨[1], [2]⟩⟩)).2
      ∧ slot (Cabinet.insert
          (Cabinet.insert (⟨[]⟩ : Cabinet Unit) 2 1
              (Capsule.ChokeQC ⟨⟨2, 1⟩, ⟨[1], [2]⟩⟩)).2
          2 1 (Capsule.ChokeQC ⟨⟨2, 1⟩, ⟨[9], [2]⟩⟩)).2 2 1
          (Capsule.ChokeQC ⟨⟨2, 1⟩, ⟨[9], [2]⟩⟩)
        = some (Capsule.ChokeQC ⟨⟨2, 1⟩, ⟨[1], [2]⟩⟩)) :=
  ⟨⟨by decide, by decide⟩,
    C7_qc_unique _ 2 1 _ _ (by decide) (by decide) (by decide)⟩

/-! ### C10: proposal uniqueness per slot -/

/-- C10: the cabinet stores at most one signed proposal per
(height, round): a second proposal differing in any byte — in particular
one from a different proposer — fails with `InsertDiff` and the first
stored proposal stays in place; the conflict is keyed purely by the
(height, round) slot. -/
theorem C10_proposal_slot_unique {B : Type} [DecidableEq B] (c : Cabinet B) (hh : Height)
    (r : Round) (sp sp' : SignedProposal B)
    (hs : Cabinet.get_signed_proposal c hh r = some sp) (hne : sp' ≠ sp) :
    (Cabinet.insert c hh r (Capsule.SignedProposal sp')).1
      = Except.error (CollectionError.InsertDiff
          (Capsule.SignedProposal sp) (Capsule.SignedProposal sp'))
    ∧ (Cabinet.insert c hh r (Capsule.SignedProposal sp')).2 = c
    ∧ Cabinet.get_signed_proposal
        (Cabinet.insert c hh r (Capsule.SignedProposal sp')).2 hh r = some sp := by
  rw [get_signed_proposal_gridAt] at hs
  have hslot : slot c hh r (Capsule.SignedProposal sp') = some (Capsule.SignedProposal sp) := by
    simp [slot, gslot, hs]
  have h1 := cabinet_insert_conflict c hh r (Capsule.SignedProposal sp')
    (Capsule.SignedProposal sp) hslot
  rw [if_neg (by simp [Ne.symm hne])] at h1
  have h2 := cabinet_insert_error_preserves c hh r _ _ h1
  refine ⟨h1, h2, ?_⟩
  rw [h2, get_signed_proposal_gridAt]
  exact hs

/-- Witness for C10: a proposal from a different proposer at an occupied
(height, round) slot is rejected and the first proposal is retained. -/
theorem C10_proposal_slot_unique_witness :
    (Cabinet.get_signed_proposal
        (Cabinet.insert (⟨[]⟩ : Cabinet Unit) 1 0
            (Capsule.SignedProposal ⟨⟨1, 0, (), [7], none, [1]⟩, [9]⟩)).2 1 0
      = some ⟨⟨1, 0, (), [7], none, [1]⟩, [9]⟩
      ∧ (⟨⟨1, 0, (), [7], none, [2]⟩, [9]⟩ : SignedProposal Unit)
          ≠ ⟨⟨1, 0, (), [7], none, [1]⟩, [9]⟩)
    ∧ ((Cabinet.insert
          (Cabinet.insert (⟨[]⟩ : Cabinet Unit) 1 0
              (Capsule.SignedProposal ⟨⟨1, 0, (), [7], none, [1]⟩, [9]⟩)).2
          1 0 (Capsule.SignedProposal ⟨⟨1, 0, (), [7], none, [2]⟩, [9]⟩)).1
        = Except.error (CollectionError.InsertDiff
            (Capsule.SignedProposal ⟨⟨1, 0, (), [7], none, [1]⟩, [9]⟩)
            (Capsule.SignedProposal ⟨⟨1, 0, (), [7], none, [2]⟩, [9]⟩))
      ∧ (Cabinet.insert
          (Cabinet.insert (⟨[]⟩ : Cabinet Unit) 1 0
              (Capsule.SignedProposal ⟨⟨1, 0, (), [7], none, [1]⟩, [9]⟩)).2
          1 0 (Capsule.SignedProposal ⟨⟨1, 0, (), [7], none, [2]⟩, [9]⟩)).2
        = (Cabinet.insert (⟨[]⟩ : Cabinet Unit) 1 0
            (Capsule.SignedProposal ⟨⟨1, 0, (), [7], none, [1]⟩, [9]⟩)).2
      ∧ Cabinet.get_signed_proposal
          (Cabinet.insert
            (Cabinet.insert (⟨[]⟩ : Cabinet Unit) 1 0
                (Capsule.SignedProposal ⟨⟨1, 0, (), [7], none, [1]⟩, [9]⟩)).2
            1 0 (Capsule.SignedProposal ⟨⟨1, 0, (), [7], none, [2]⟩, [9]⟩)).2 1 0
        = some ⟨⟨1, 0, (), [7], none, [1]⟩, [9]⟩) :=
  ⟨⟨by decide, by decide⟩,
    C10_proposal_slot_unique _ 1 0 _ _ (by decide) (by decide)⟩

/-! ### C5: weight monotonicity -/

section MonotoneLemmas

variable {B : Type} [DecidableEq B]

theorem update_max_cum (a b : CumWeight) :
    (update_max_vote_weight a b).cum_weight = max a.cum_weight b.cum_weight := by
  by_cases h : a.cum_weight < b.cum_weight
  · simp only [update_max_vote_weight, if_pos h]
    exact (Nat.max_eq_right (Nat.le_of_lt h)).symm
  · simp only [update_max_vote_weight, if_neg h]
    exact (Nat.max_eq_left (Nat.not_lt.mp h)).symm

/-- `Drawer::insert` always re-stores the (possibly updated) grid of the
round and touches nothing else in the collectors map. -/
theorem drawer_insert_collectors (dr : Drawer B) (r : Round) (d : Capsule B) :
    (Drawer.insert dr r d).2.collectors
      = insertA r (Grid.insert ((getA r dr.collectors).getD default) d).2 dr.collectors := by
  simp only [Drawer.insert]
  rcases hgi : Grid.insert ((getA r dr.collectors).getD default) d with ⟨res, g'⟩
  cases res with
  | error e => rfl
  | ok o =>
    cases o with
    | none => rfl
    | some cw => cases hvt : cw.vote_type <;> simp [hvt]

/-- The height-level running maxima never decrease across a
`Drawer::insert`. -/
theorem drawer_insert_max_mono (dr : Drawer B) (r : Round) (d : Capsule B) (vt : VoteType) :
    (drawerMaxOf dr vt).cum_weight ≤ (drawerMaxOf (Drawer.insert dr r d).2 vt).cum_weight := by
  simp only [Drawer.insert]
  rcases hgi : Grid.insert ((getA r dr.collectors).getD default) d with ⟨res, g'⟩
  cases res with
  | error e => exact Nat.le_refl _
  | ok o =>
    cases o with
    | none => exact Nat.le_refl _
    | some cw =>
      cases hvt : cw.vote_type <;> cases vt <;>
        simp [drawerMaxOf, update_max_cum, hvt]

theorem reportedMax_eq (c : Cabinet B) (hh : Height) (vt : VoteType) :
    reportedMax c hh vt = (drawerMaxOf (drawerAt c hh) vt).cum_weight := by
  cases vt <;> rfl

/-- The tracked cumulative weights of a grid never decrease across a
`Grid::insert` whose added weight does not overflow `u32`. -/
theorem grid_insert_tracked_mono (g : Grid B) (d : Capsule B) (vt : VoteType) (hash : Hash)
    (hnov : capsuleWeight d + gtracked g vt hash < u32Size) :
    gtracked g vt hash ≤ gtracked (Grid.insert g d).2 vt hash := by
  cases d with
  | SignedProposal sp =>
    simp only [Grid.insert, Grid.insert_signed_proposal]
    rcases check_exist g.signed_proposal sp Capsule.SignedProposal with e | u
    · exact Nat.le_refl _
    · cases vt <;> exact Nat.le_refl _
  | PreVoteQC qc =>
    simp only [Grid.insert, Grid.insert_pre_vote_qc]
    rcases check_exist g.pre_vote_qc qc Capsule.PreVoteQC with e | u
    · exact Nat.le_refl _
    · cases vt <;> exact Nat.le_refl _
  | PreCommitQC qc =>
    simp only [Grid.insert, Grid.insert_pre_commit_qc]
    rcases check_exist g.pre_commit_qc qc Capsule.PreCommitQC with e | u
    · exact Nat.le_refl _
    · cases vt <;> exact Nat.le_refl _
  | ChokeQC qc =>
    simp only [Grid.insert, Grid.insert_choke_qc]
    rcases check_exist g.choke_qc qc Capsule.ChokeQC with e | u
    · exact Nat.le_refl _
    · cases vt <;> exact Nat.le_refl _
  | SignedPreVote sv =>
    simp only [Grid.insert, Grid.insert_signed_pre_vote]
    rcases check_exist (getA sv.voter g.signed_pre_votes) sv Capsule.SignedPreVote with e | u
    · exact Nat.le_refl _
    · cases vt with
      | PreCommit => exact Nat.le_refl _
      | Choke => exact Nat.le_refl _
      | PreVote =>
        simp only [gtracked, update_vote_weight_map]
        by_cases hhs : sv.vote.block_hash = hash
        · subst hhs
          rw [getA_insertA_self]
          rcases hold : getA sv.vote.block_hash g.pre_vote_vote_weights with _ | w
          · simp
          · simp only [hold, Option.getD_some]
            simp only [capsuleWeight, gtracked, hold, Option.getD_some] at hnov
            rw [Nat.mod_eq_of_lt hnov]
            exact Nat.le_add_left _ _
        · rw [getA_insertA_ne _ _ (Ne.symm hhs)]
  | SignedPreCommit sv =>
    simp only [Grid.insert, Grid.insert_signed_pre_commit]
    rcases check_exist (getA sv.voter g.signed_pre_commits) sv Capsule.SignedPreCommit with e | u
    · exact Nat.le_refl _
    · cases vt with
      | PreVote => exact Nat.le_refl _
      | Choke => exact Nat.le_refl _
      | PreCommit =>
        simp only [gtracked, update_vote_weight_map]
        by_cases hhs : sv.vote.block_hash = hash
        · subst hhs
          rw [getA_insertA_self]
          rcases hold : getA sv.vote.block_hash g.pre_commit_vote_weights with _ | w
          · simp
          · simp only [hold, Option.getD_some]
            simp only [capsuleWeight, gtracked, hold, Option.getD_some] at hnov
            rw [Nat.mod_eq_of_lt hnov]
            exact Nat.le_add_left _ _
        · rw [getA_insertA_ne _ _ (Ne.symm hhs)]
  | SignedChoke sc =>
    simp only [Grid.insert, Grid.insert_signed_choke]
    rcases check_exist (getA sc.voter g.signed_chokes) sc Capsule.SignedChoke with e | u
    · exact Nat.le_refl _
    · cases vt with
      | PreVote => exact Nat.le_refl _
      | PreCommit => exact Nat.le_refl _
      | Choke =>
        simp only [gtracked, update_max_vote_weight]
        split
        · next h => exact Nat.le_of_lt h
        · exact Nat.le_refl _

end MonotoneLemmas

/-- C5 counterexample: the per-hash accumulator adds vote weights with
`u32` arithmetic (`update_vote_weight_map`, src/cabinet.rs:446-457), so
two pre-votes of weight `2^31` for the same hash wrap the tracked
cumulative weight from `2^31` down to `0`: an insert can lower a tracked
cumulative weight. -/
theorem C5_counterexample :
    tracked (Cabinet.insert (⟨[]⟩ : Cabinet Unit) 0 0
        (Capsule.SignedPreVote ⟨⟨0, 0, [5]⟩, 2 ^ 31, [1], []⟩)).2
      0 0 VoteType.PreVote [5] = 2 ^ 31
    ∧ tracked (Cabinet.insert
        (Cabinet.insert (⟨[]⟩ : Cabinet Unit) 0 0
            (Capsule.SignedPreVote ⟨⟨0, 0, [5]⟩, 2 ^ 31, [1], []⟩)).2
        0 0 (Capsule.SignedPreVote ⟨⟨0, 0, [5]⟩, 2 ^ 31, [2], []⟩)).2
      0 0 VoteType.PreVote [5] = 0 := by
  constructor
  · decide
  · decide

/-- C5 (amended): across any single `Cabinet::insert`, the reported
maximum cumulative weight of every (height, vote type) never decreases,
and the tracked cumulative weight of every (height, round, vote type,
hash) key never decreases provided the inserted weight does not overflow
the `u32` accumulator of that key (the counterexample shows the wrap is
the one exception). -/
theorem C5_amended_monotonic {B : Type} [DecidableEq B] (c : Cabinet B) (hh : Height)
    (r : Round) (d : Capsule B) (h' : Height) (r' : Round) (vt : VoteType) (hash : Hash)
    (hnov : capsuleWeight d + tracked c h' r' vt hash < u32Size) :
    tracked c h' r' vt hash ≤ tracked (Cabinet.insert c hh r d).2 h' r' vt hash
    ∧ reportedMax c h' vt ≤ reportedMax (Cabinet.insert c hh r d).2 h' vt := by
  have hdrawers : (Cabinet.insert c hh r d).2.drawers
      = insertA hh (Drawer.insert (drawerAt c hh) r d).2 c.drawers := rfl
  by_cases hhh : h' = hh
  · subst hhh
    have hdrAt : drawerAt (Cabinet.insert c h' r d).2 h'
        = (Drawer.insert (drawerAt c h') r d).2 := by
      show (getA h' (Cabinet.insert c h' r d).2.drawers).getD default = _
      rw [hdrawers, getA_insertA_self, Option.getD_some]
    constructor
    · unfold tracked gridAt
      rw [hdrAt, drawer_insert_collectors]
      by_cases hrr : r' = r
      · subst hrr
        rw [getA_insertA_self, Option.getD_some]
        exact grid_insert_tracked_mono _ d vt hash hnov
      · rw [getA_insertA_ne _ _ hrr]
    · rw [reportedMax_eq, reportedMax_eq, hdrAt]
      exact drawer_insert_max_mono _ r d vt
  · have hdrAt : drawerAt (Cabinet.insert c hh r d).2 h' = drawerAt c h' := by
      unfold drawerAt
      rw [hdrawers, getA_insertA_ne _ _ hhh]
    constructor
    · unfold tracked gridAt
      rw [hdrAt]
    · rw [reportedMax_eq, reportedMax_eq, hdrAt]

/-- Witness for C5 (amended): a concrete non-overflowing insert does not
lower the tracked weight or the reported maximum. -/
theorem C5_amended_monotonic_witness :
    (capsuleWeight (Capsule.SignedPreVote (B := Unit) ⟨⟨0, 0, [5]⟩, 4, [2], []⟩)
        + tracked (Cabinet.insert (⟨[]⟩ : Cabinet Unit) 0 0
            (Capsule.SignedPreVote ⟨⟨0, 0, [5]⟩, 10, [1], []⟩)).2 0 0 VoteType.PreVote [5]
        < u32Size)
    ∧ (tracked (Cabinet.insert (⟨[]⟩ : Cabinet Unit) 0 0
          (Capsule.SignedPreVote ⟨⟨0, 0, [5]⟩, 10, [1], []⟩)).2 0 0 VoteType.PreVote [5]
        ≤ tracked (Cabinet.insert
            (Cabinet.insert (⟨[]⟩ : Cabinet Unit) 0 0
                (Capsule.SignedPreVote ⟨⟨0, 0, [5]⟩, 10, [1], []⟩)).2
            0 0 (Capsule.SignedPreVote ⟨⟨0, 0, [5]⟩, 4, [2], []⟩)).2 0 0 VoteType.PreVote [5]
      ∧ reportedMax (Cabinet.insert (⟨[]⟩ : Cabinet Unit) 0 0
            (Capsule.SignedPreVote ⟨⟨0, 0, [5]⟩, 10, [1], []⟩)).2 0 VoteType.PreVote
        ≤ reportedMax (Cabinet.insert
            (Cabinet.insert (⟨[]⟩ : Cabinet Unit) 0 0
                (Capsule.SignedPreVote ⟨⟨0, 0, [5]⟩, 10, [1], []⟩)).2
            0 0 (Capsule.SignedPreVote ⟨⟨0, 0, [5]⟩, 4, [2], []⟩)).2 0 VoteType.PreVote) :=
  ⟨by decide,
    C5_amended_monotonic _ 0 0 _ 0 0 VoteType.PreVote [5] (by decide)⟩

/-! ### C3: which maximum does a successful vote insert return? -/

section HeightMaxLemmas

variable {B : Type} [DecidableEq B]

theorem valsMax_insertA_top {K V : Type} [DecidableEq K] (f : V → Nat) (k : K) (v : V)
    (l : AListM K V) (hge : ∀ v₀, getA k l = some v₀ → f v₀ ≤ f v) :
    valsMax f (insertA k v l) = max (valsMax f l) (f v) := by
  induction l with
  | nil =>
    simp only [insertA, valsMax, List.foldr]
    omega
  | cons p t ih =>
    obtain ⟨k₀, v₀⟩ := p
    by_cases hk : k₀ = k
    · subst hk
      have hle : f v₀ ≤ f v := hge v₀ (by simp [getA])
      simp only [insertA, if_pos rfl, valsMax, List.foldr]
      simp only [valsMax] at *
      omega
    · have hge' : ∀ w₀, getA k t = some w₀ → f w₀ ≤ f v := by
        intro w₀ hw
        exact hge w₀ (by simp [getA, hk, hw])
      have ih' := ih hge'
      simp only [insertA, if_neg hk, valsMax, List.foldr]
      simp only [valsMax] at ih'
      rw [ih']
      omega

theorem valsMax_ge_of_getA {K V : Type} [DecidableEq K] (f : V → Nat) {k : K} {v : V}
    {l : AListM K V} (h : getA k l = some v) : f v ≤ valsMax f l := by
  induction l with
  | nil => simp [getA] at h
  | cons p t ih =>
    obtain ⟨k₀, v₀⟩ := p
    simp only [valsMax, List.foldr]
    simp only [valsMax] at ih
    by_cases hk : k₀ = k
    · subst hk
      have hv : v₀ = v := by simpa [getA] using h
      subst hv
      omega
    · simp only [getA, if_neg hk] at h
      have := ih h
      omega

theorem getA_none_insertA {K V : Type} [DecidableEq K] {k : K} (v : V) {l : AListM K V}
    (h : getA k l = none) : insertA k v l = l ++ [(k, v)] := by
  induction l with
  | nil => rfl
  | cons p t ih =>
    obtain ⟨k₀, v₀⟩ := p
    by_cases hk : k₀ = k
    · subst hk
      simp [getA] at h
    · simp only [getA, if_neg hk] at h
      simp [insertA, hk, ih h]

theorem valsSum_append {K V : Type} (f : V → Nat) (l : AListM K V) (k : K) (v : V) :
    valsSum f (l ++ [(k, v)]) = valsSum f l + f v := by
  induction l with
  | nil => simp [valsSum, List.foldr]
  | cons p t ih =>
    show f p.2 + valsSum f (t ++ [(k, v)]) = f p.2 + valsSum f t + f v
    rw [ih]
    omega

theorem check_exist_ok {T : Type} [DecidableEq T] {opt : Option T} {d : T}
    {into : T → Capsule B} {u : Unit}
    (h : check_exist opt d into = Except.ok u) : opt = none := by
  cases opt with
  | none => rfl
  | some x =>
    exfalso
    simp only [check_exist] at h
    split at h <;> simp at h

theorem wf_default_grid : WFGrid (default : Grid B) :=
  ⟨rfl, fun h => absurd h (Nat.not_succ_le_zero 0), rfl,
   fun h => absurd h (Nat.not_succ_le_zero 0), rfl,
   fun h => absurd h (Nat.not_succ_le_zero 0)⟩

theorem wf_default_drawer : WFDrawer (default : Drawer B) :=
  ⟨fun p hp => absurd hp (List.not_mem_nil p), rfl,
   fun h => absurd h (Nat.not_succ_le_zero 0), rfl,
   fun h => absurd h (Nat.not_succ_le_zero 0), rfl,
   fun h => absurd h (Nat.not_succ_le_zero 0)⟩

theorem wf_gridAt_of_drawer {dr : Drawer B} (h : WFDrawer dr) (r : Round) :
    WFGrid ((getA r dr.collectors).getD default) := by
  rcases hx : getA r dr.collectors with _ | g
  · simpa using wf_default_grid
  · simpa using h.1 _ (getA_mem hx)

theorem wf_drawerAt {c : Cabinet B} (h : WFCabinet c) (hh : Height) :
    WFDrawer (drawerAt c hh) := by
  unfold drawerAt
  rcases hx : getA hh c.drawers with _ | dr
  · simpa using wf_default_drawer
  · simpa using h _ (getA_mem hx)

theorem update_max_type {a b : CumWeight} (t : VoteType) (hb : b.vote_type = t)
    (hb1 : 1 ≤ b.cum_weight) (ha : 1 ≤ a.cum_weight → a.vote_type = t) :
    (update_max_vote_weight a b).vote_type = t := by
  unfold update_max_vote_weight
  split
  · exact hb
  · next h => exact ha (Nat.le_trans hb1 (Nat.not_lt.mp h))

theorem update_vote_weight_map_fst (map : AListM Hash Weight) (hash : Hash) (w : Weight)
    (hnov : w + (getA hash map).getD 0 < u32Size) :
    (update_vote_weight_map map hash w).1 = w + (getA hash map).getD 0 := by
  unfold update_vote_weight_map
  rcases hold : getA hash map with _ | wOld
  · simp
  · simp only [hold, Option.getD_some]
    rw [Nat.mod_eq_of_lt]
    simpa [hold] using hnov

theorem update_vote_weight_map_snd (map : AListM Hash Weight) (hash : Hash) (w : Weight) :
    (update_vote_weight_map map hash w).2
      = insertA hash (update_vote_weight_map map hash w).1 map := by
  unfold update_vote_weight_map
  rcases getA hash map with _ | wOld <;> rfl

/-- What a successful vote insert into a consistent grid returns: the
(positive) running maximum of the vote type, equal to the
specification-level per-grid maximum after the insert and at least the one
before it. -/
theorem grid_insert_vote_wf (g : Grid B) (d : Capsule B) (cw : CumWeight)
    (hwf : WFGrid g) (hpos : 1 ≤ capsuleWeight d)
    (hnov : capsuleWeight d + gtracked g (voteTypeOf d) (voteHashOf d) < u32Size)
    (hres : (Grid.insert g d).1 = Except.ok (some cw)) :
    cw.vote_type = voteTypeOf d
    ∧ 1 ≤ cw.cum_weight
    ∧ gridTypeMax (voteTypeOf d) g ≤ cw.cum_weight
    ∧ cw.cum_weight = gridTypeMax (voteTypeOf d) (Grid.insert g d).2 := by
  obtain ⟨hpv, hpvt, hpc, hpct, hch, hcht⟩ := hwf
  cases d with
  | SignedProposal sp =>
    exfalso
    simp only [Grid.insert, Grid.insert_signed_proposal] at hres
    rcases hc : check_exist g.signed_proposal sp Capsule.SignedProposal with e | u <;>
      rw [hc] at hres <;> simp at hres
  | PreVoteQC qc =>
    exfalso
    simp only [Grid.insert, Grid.insert_pre_vote_qc] at hres
    rcases hc : check_exist g.pre_vote_qc qc Capsule.PreVoteQC with e | u <;>
      rw [hc] at hres <;> simp at hres
  | PreCommitQC qc =>
    exfalso
    simp only [Grid.insert, Grid.insert_pre_commit_qc] at hres
    rcases hc : check_exist g.pre_commit_qc qc Capsule.PreCommitQC with e | u <;>
      rw [hc] at hres <;> simp at hres
  | ChokeQC qc =>
    exfalso
    simp only [Grid.insert, Grid.insert_choke_qc] at hres
    rcases hc : check_exist g.choke_qc qc Capsule.ChokeQC with e | u <;>
      rw [hc] at hres <;> simp at hres
  | SignedPreVote sv =>
    simp only [Grid.insert, Grid.insert_signed_pre_vote] at hres
    rcases hc : check_exist (getA sv.voter g.signed_pre_votes) sv Capsule.SignedPreVote
      with e | u
    · exfalso; rw [hc] at hres; simp at hres
    · rw [hc] at hres
      simp at hres
      have hw1 : (1 : Nat) ≤ sv.vote_weight := hpos
      have hnov' : sv.vote_weight
          + (getA sv.vote.block_hash g.pre_vote_vote_weights).getD 0 < u32Size := hnov
      have hfst := update_vote_weight_map_fst g.pre_vote_vote_weights sv.vote.block_hash
        sv.vote_weight hnov'
      have hsnd := update_vote_weight_map_snd g.pre_vote_vote_weights sv.vote.block_hash
        sv.vote_weight
      have hcum1 : 1 ≤ (update_vote_weight_map g.pre_vote_vote_weights sv.vote.block_hash
          sv.vote_weight).1 := by
        rw [hfst]
        exact Nat.le_trans hw1 (Nat.le_add_right _ _)
      have hvm := valsMax_insertA_top (id : Weight → Nat) sv.vote.block_hash
        (update_vote_weight_map g.pre_vote_vote_weights sv.vote.block_hash sv.vote_weight).1
        g.pre_vote_vote_weights ?hge
      case hge =>
        intro v₀ hv₀
        rw [hfst, hv₀]
        exact Nat.le_add_left _ _
      have hfield : (Grid.insert g (Capsule.SignedPreVote sv)).2.pre_vote_vote_weights
          = (update_vote_weight_map g.pre_vote_vote_weights sv.vote.block_hash
              sv.vote_weight).2 := by
        simp only [Grid.insert, Grid.insert_signed_pre_vote, hc]
      refine ⟨?_, ?_, ?_, ?_⟩
      · rw [← hres]
        exact update_max_type _ rfl hcum1 hpvt
      · rw [← hres, update_max_cum]
        exact Nat.le_trans hcum1 (Nat.le_max_right _ _)
      · show valsMax id g.pre_vote_vote_weights ≤ cw.cum_weight
        rw [← hres, update_max_cum, ← hpv]
        exact Nat.le_max_left _ _
      · show cw.cum_weight
          = valsMax id (Grid.insert g (Capsule.SignedPreVote sv)).2.pre_vote_vote_weights
        rw [hfield, hsnd, hvm, ← hres, update_max_cum, hpv]
        rfl
  | SignedPreCommit sv =>
    simp only [Grid.insert, Grid.insert_signed_pre_commit] at hres
    rcases hc : check_exist (getA sv.voter g.signed_pre_commits) sv Capsule.SignedPreCommit
      with e | u
    · exfalso; rw [hc] at hres; simp at hres
    · rw [hc] at hres
      simp at hres
      have hw1 : (1 : Nat) ≤ sv.vote_weight := hpos
      have hnov' : sv.vote_weight
          + (getA sv.vote.block_hash g.pre_commit_vote_weights).getD 0 < u32Size := hnov
      have hfst := update_vote_weight_map_fst g.pre_commit_vote_weights sv.vote.block_hash
        sv.vote_weight hnov'
      have hsnd := update_vote_weight_map_snd g.pre_commit_vote_weights sv.vote.block_hash
        sv.vote_weight
      have hcum1 : 1 ≤ (update_vote_weight_map g.pre_commit_vote_weights sv.vote.block_hash
          sv.vote_weight).1 := by
        rw [hfst]
        exact Nat.le_trans hw1 (Nat.le_add_right _ _)
      have hvm := valsMax_insertA_top (id : Weight → Nat) sv.vote.block_hash
        (update_vote_weight_map g.pre_commit_vote_weights sv.vote.block_hash sv.vote_weight).1
        g.pre_commit_vote_weights ?hge
      case hge =>
        intro v₀ hv₀
        rw [hfst, hv₀]
        exact Nat.le_add_left _ _
      have hfield : (Grid.insert g (Capsule.SignedPreCommit sv)).2.pre_commit_vote_weights
          = (update_vote_weight_map g.pre_commit_vote_weights sv.vote.block_hash
              sv.vote_weight).2 := by
        simp only [Grid.insert, Grid.insert_signed_pre_commit, hc]
      refine ⟨?_, ?_, ?_, ?_⟩
      · rw [← hres]
        exact update_max_type _ rfl hcum1 hpct
      · rw [← hres, update_max_cum]
        exact Nat.le_trans hcum1 (Nat.le_max_right _ _)
      · show valsMax id g.pre_commit_vote_weights ≤ cw.cum_weight
        rw [← hres, update_max_cum, ← hpc]
        exact Nat.le_max_left _ _
      · show cw.cum_weight
          = valsMax id (Grid.insert g (Capsule.SignedPreCommit sv)).2.pre_commit_vote_weights
        rw [hfield, hsnd, hvm, ← hres, update_max_cum, hpc]
        rfl
  | SignedChoke sc =>
    simp only [Grid.insert, Grid.insert_signed_choke] at hres
    rcases hc : check_exist (getA sc.voter g.signed_chokes) sc Capsule.SignedChoke with e | u
    · exfalso; rw [hc] at hres; simp at hres
    · rw [hc] at hres
      simp at hres
      have hnone := check_exist_ok hc
      have hw1 : (1 : Nat) ≤ sc.vote_weight := hpos
      have hmod : (g.choke_vote_weight.cum_weight + sc.vote_weight) % u32Size
          = g.choke_vote_weight.cum_weight + sc.vote_weight := by
        apply Nat.mod_eq_of_lt
        rw [Nat.add_comm]
        exact hnov
      have hlt : g.choke_vote_weight.cum_weight
          < (g.choke_vote_weight.cum_weight + sc.vote_weight) % u32Size := by
        rw [hmod]
        exact Nat.lt_add_of_pos_right hw1
      have hcw : cw = ⟨(g.choke_vote_weight.cum_weight + sc.vote_weight) % u32Size,
          VoteType.Choke, sc.choke.round, none⟩ := by
        rw [← hres]
        unfold update_max_vote_weight
        rw [if_pos hlt]
      have hfield : (Grid.insert g (Capsule.SignedChoke sc)).2.signed_chokes
          = insertA sc.voter sc g.signed_chokes := by
        simp only [Grid.insert, Grid.insert_signed_choke, hc]
      refine ⟨?_, ?_, ?_, ?_⟩
      · rw [hcw]
        rfl
      · rw [hcw]
        show 1 ≤ (g.choke_vote_weight.cum_weight + sc.vote_weight) % u32Size
        rw [hmod]
        exact Nat.le_trans hw1 (Nat.le_add_left _ _)
      · show valsSum SignedChoke.vote_weight g.signed_chokes ≤ cw.cum_weight
        rw [← hch, hcw]
        show g.choke_vote_weight.cum_weight
          ≤ (g.choke_vote_weight.cum_weight + sc.vote_weight) % u32Size
        rw [hmod]
        exact Nat.le_add_right _ _
      · show cw.cum_weight = valsSum SignedChoke.vote_weight
          (Grid.insert g (Capsule.SignedChoke sc)).2.signed_chokes
        rw [hfield, getA_none_insertA _ hnone, valsSum_append, ← hch, hcw]
        show (g.choke_vote_weight.cum_weight + sc.vote_weight) % u32Size = _
        rw [hmod]

theorem mem_insertA {K V : Type} [DecidableEq K] {p : K × V} {k : K} {v : V}
    {l : AListM K V} (h : p ∈ insertA k v l) : p = (k, v) ∨ p ∈ l := by
  induction l with
  | nil => simpa [insertA] using h
  | cons q t ih =>
    obtain ⟨k₀, v₀⟩ := q
    by_cases hk : k₀ = k
    · subst hk
      rcases (by simpa [insertA] using h : p = (k₀, v) ∨ p ∈ t) with he | hm
      · exact Or.inl he
      · exact Or.inr (List.mem_cons_of_mem _ hm)
    · rcases (by simpa [insertA, hk] using h : p = (k₀, v₀) ∨ p ∈ insertA k v t) with he | hm
      · exact Or.inr (by simp [he])
      · rcases ih hm with he' | hm'
        · exact Or.inl he'
        · exact Or.inr (List.mem_cons_of_mem _ hm')

theorem gridTypeMax_default (vt : VoteType) : gridTypeMax vt (default : Grid B) = 0 := by
  cases vt <;> rfl

/-- Inserts that are not of a vote type `vt` do not change the grid's
specification-level maximum for `vt`. -/
theorem grid_insert_typeMax_frame (g : Grid B) (d : Capsule B) (vt : VoteType)
    (hne : vt ≠ voteTypeOf d ∨ isVoteCapsule d = false) :
    gridTypeMax vt (Grid.insert g d).2 = gridTypeMax vt g := by
  cases d with
  | SignedProposal sp =>
    simp only [Grid.insert, Grid.insert_signed_proposal]
    rcases check_exist g.signed_proposal sp Capsule.SignedProposal with e | u
    · rfl
    · cases vt <;> rfl
  | PreVoteQC qc =>
    simp only [Grid.insert, Grid.insert_pre_vote_qc]
    rcases check_exist g.pre_vote_qc qc Capsule.PreVoteQC with e | u
    · rfl
    · cases vt <;> rfl
  | PreCommitQC qc =>
    simp only [Grid.insert, Grid.insert_pre_commit_qc]
    rcases check_exist g.pre_commit_qc qc Capsule.PreCommitQC with e | u
    · rfl
    · cases vt <;> rfl
  | ChokeQC qc =>
    simp only [Grid.insert, Grid.insert_choke_qc]
    rcases check_exist g.choke_qc qc Capsule.ChokeQC with e | u
    · rfl
    · cases vt <;> rfl
  | SignedPreVote sv =>
    have hne' : vt ≠ VoteType.PreVote := by
      rcases hne with h | h
      · exact h
      · exact absurd h (by simp [isVoteCapsule])
    simp only [Grid.insert, Grid.insert_signed_pre_vote]
    rcases check_exist (getA sv.voter g.signed_pre_votes) sv Capsule.SignedPreVote with e | u
    · rfl
    · cases vt with
      | PreVote => exact absurd rfl hne'
      | PreCommit => rfl
      | Choke => rfl
  | SignedPreCommit sv =>
    have hne' : vt ≠ VoteType.PreCommit := by
      rcases hne with h | h
      · exact h
      · exact absurd h (by simp [isVoteCapsule])
    simp only [Grid.insert, Grid.insert_signed_pre_commit]
    rcases check_exist (getA sv.voter g.signed_pre_commits) sv Capsule.SignedPreCommit
      with e | u
    · rfl
    · cases vt with
      | PreVote => rfl
      | PreCommit => exact absurd rfl hne'
      | Choke => rfl
  | SignedChoke sc =>
    have hne' : vt ≠ VoteType.Choke := by
      rcases hne with h | h
      · exact h
      · exact absurd h (by simp [isVoteCapsule])
    simp only [Grid.insert, Grid.insert_signed_choke]
    rcases check_exist (getA sc.voter g.signed_chokes) sc Capsule.SignedChoke with e | u
    · rfl
    · cases vt with
      | PreVote => rfl
      | PreCommit => rfl
      | Choke => exact absurd rfl hne'

/-- Replacing the entry of a key by a value with the same `f`-measure, or
appending one of measure 0, leaves the maximum unchanged. -/
theorem valsMax_insertA_frame {K V : Type} [DecidableEq K] [Inhabited V] (f : V → Nat)
    (k : K) (v' : V) (l : AListM K V)
    (heq : f v' = f ((getA k l).getD default)) (hdef : f (default : V) = 0) :
    valsMax f (insertA k v' l) = valsMax f l := by
  rw [valsMax_insertA_top f k v' l
    (fun v₀ hv₀ => Nat.le_of_eq (by rw [heq, hv₀, Option.getD_some]))]
  rcases hx : getA k l with _ | v₀
  · rw [heq, hx, Option.getD_none, hdef, Nat.max_zero]
  · rw [heq, hx, Option.getD_some]
    exact Nat.max_eq_left (valsMax_ge_of_getA _ hx)

/-- A vote insert never returns `Ok(None)`. -/
theorem grid_insert_vote_not_none (g : Grid B) (d : Capsule B)
    (hv : isVoteCapsule d = true) : (Grid.insert g d).1 ≠ Except.ok none := by
  cases d with
  | SignedPreVote sv =>
    simp only [Grid.insert, Grid.insert_signed_pre_vote]
    rcases check_exist (getA sv.voter g.signed_pre_votes) sv Capsule.SignedPreVote
      with e | u <;> simp
  | SignedPreCommit sv =>
    simp only [Grid.insert, Grid.insert_signed_pre_commit]
    rcases check_exist (getA sv.voter g.signed_pre_commits) sv Capsule.SignedPreCommit
      with e | u <;> simp
  | SignedChoke sc =>
    simp only [Grid.insert, Grid.insert_signed_choke]
    rcases check_exist (getA sc.voter g.signed_chokes) sc Capsule.SignedChoke
      with e | u <;> simp
  | SignedProposal sp => exact Bool.noConfusion hv
  | PreVoteQC qc => exact Bool.noConfusion hv
  | PreCommitQC qc => exact Bool.noConfusion hv
  | ChokeQC qc => exact Bool.noConfusion hv

/-- A `Ok(Some _)` result only arises from a vote insert. -/
theorem grid_insert_some_isVote {g : Grid B} {d : Capsule B} {cw : CumWeight}
    (h : (Grid.insert g d).1 = Except.ok (some cw)) : isVoteCapsule d = true := by
  cases d with
  | SignedPreVote sv => rfl
  | SignedPreCommit sv => rfl
  | SignedChoke sc => rfl
  | SignedProposal sp =>
    exfalso
    simp only [Grid.insert, Grid.insert_signed_proposal] at h
    rcases hc : check_exist g.signed_proposal sp Capsule.SignedProposal with e | u <;>
      rw [hc] at h <;> simp at h
  | PreVoteQC qc =>
    exfalso
    simp only [Grid.insert, Grid.insert_pre_vote_qc] at h
    rcases hc : check_exist g.pre_vote_qc qc Capsule.PreVoteQC with e | u <;>
      rw [hc] at h <;> simp at h
  | PreCommitQC qc =>
    exfalso
    simp only [Grid.insert, Grid.insert_pre_commit_qc] at h
    rcases hc : check_exist g.pre_commit_qc qc Capsule.PreCommitQC with e | u <;>
      rw [hc] at h <;> simp at h
  | ChokeQC qc =>
    exfalso
    simp only [Grid.insert, Grid.insert_choke_qc] at h
    rcases hc : check_exist g.choke_qc qc Capsule.ChokeQC with e | u <;>
      rw [hc] at h <;> simp at h

/-- Grid consistency is preserved by every insert whose vote weight (if
any) is positive and does not overflow its accumulator. -/
theorem grid_insert_wf (g : Grid B) (d : Capsule B) (hwf : WFGrid g)
    (hcond : isVoteCapsule d = true →
      1 ≤ capsuleWeight d
      ∧ capsuleWeight d + gtracked g (voteTypeOf d) (voteHashOf d) < u32Size) :
    WFGrid (Grid.insert g d).2 := by
  cases d with
  | SignedProposal sp =>
    simp only [Grid.insert, Grid.insert_signed_proposal]
    rcases check_exist g.signed_proposal sp Capsule.SignedProposal with e | u
    · exact hwf
    · exact hwf
  | PreVoteQC qc =>
    simp only [Grid.insert, Grid.insert_pre_vote_qc]
    rcases check_exist g.pre_vote_qc qc Capsule.PreVoteQC with e | u
    · exact hwf
    · exact hwf
  | PreCommitQC qc =>
    simp only [Grid.insert, Grid.insert_pre_commit_qc]
    rcases check_exist g.pre_commit_qc qc Capsule.PreCommitQC with e | u
    · exact hwf
    · exact hwf
  | ChokeQC qc =>
    simp only [Grid.insert, Grid.insert_choke_qc]
    rcases check_exist g.choke_qc qc Capsule.ChokeQC with e | u
    · exact hwf
    · exact hwf
  | SignedPreVote sv =>
    obtain ⟨hpos, hnov⟩ := hcond rfl
    obtain ⟨hpv, hpvt, hpc, hpct, hch, hcht⟩ := hwf
    simp only [Grid.insert, Grid.insert_signed_pre_vote]
    rcases check_exist (getA sv.voter g.signed_pre_votes) sv Capsule.SignedPreVote with e | u
    · exact ⟨hpv, hpvt, hpc, hpct, hch, hcht⟩
    · have hw1 : (1 : Nat) ≤ sv.vote_weight := hpos
      have hnov' : sv.vote_weight
          + (getA sv.vote.block_hash g.pre_vote_vote_weights).getD 0 < u32Size := hnov
      have hfst := update_vote_weight_map_fst g.pre_vote_vote_weights sv.vote.block_hash
        sv.vote_weight hnov'
      have hsnd := update_vote_weight_map_snd g.pre_vote_vote_weights sv.vote.block_hash
        sv.vote_weight
      have hcum1 : 1 ≤ (update_vote_weight_map g.pre_vote_vote_weights sv.vote.block_hash
          sv.vote_weight).1 := by
        rw [hfst]
        exact Nat.le_trans hw1 (Nat.le_add_right _ _)
      have hvm := valsMax_insertA_top (id : Weight → Nat) sv.vote.block_hash
        (update_vote_weight_map g.pre_vote_vote_weights sv.vote.block_hash sv.vote_weight).1
        g.pre_vote_vote_weights ?hge
      case hge =>
        intro v₀ hv₀
        rw [hfst, hv₀]
        exact Nat.le_add_left _ _
      refine ⟨?_, ?_, hpc, hpct, hch, hcht⟩
      · show (update_max_vote_weight g.pre_vote_max_vote_weight
            ⟨(update_vote_weight_map g.pre_vote_vote_weights sv.vote.block_hash
                sv.vote_weight).1,
              VoteType.PreVote, sv.vote.round, some sv.vote.block_hash⟩).cum_weight
          = valsMax id (update_vote_weight_map g.pre_vote_vote_weights sv.vote.block_hash
              sv.vote_weight).2
        rw [update_max_cum, hsnd, hvm, hpv]
        rfl
      · intro _
        exact update_max_type _ rfl hcum1 hpvt
  | SignedPreCommit sv =>
    obtain ⟨hpos, hnov⟩ := hcond rfl
    obtain ⟨hpv, hpvt, hpc, hpct, hch, hcht⟩ := hwf
    simp only [Grid.insert, Grid.insert_signed_pre_commit]
    rcases check_exist (getA sv.voter g.signed_pre_commits) sv Capsule.SignedPreCommit
      with e | u
    · exact ⟨hpv, hpvt, hpc, hpct, hch, hcht⟩
    · have hw1 : (1 : Nat) ≤ sv.vote_weight := hpos
      have hnov' : sv.vote_weight
          + (getA sv.vote.block_hash g.pre_commit_vote_weights).getD 0 < u32Size := hnov
      have hfst := update_vote_weight_map_fst g.pre_commit_vote_weights sv.vote.block_hash
        sv.vote_weight hnov'
      have hsnd := update_vote_weight_map_snd g.pre_commit_vote_weights sv.vote.block_hash
        sv.vote_weight
      have hcum1 : 1 ≤ (update_vote_weight_map g.pre_commit_vote_weights sv.vote.block_hash
          sv.vote_weight).1 := by
        rw [hfst]
        exact Nat.le_trans hw1 (Nat.le_add_right _ _)
      have hvm := valsMax_insertA_top (id : Weight → Nat) sv.vote.block_hash
        (update_vote_weight_map g.pre_commit_vote_weights sv.vote.block_hash sv.vote_weight).1
        g.pre_commit_vote_weights ?hge
      case hge =>
        intro v₀ hv₀
        rw [hfst, hv₀]
        exact Nat.le_add_left _ _
      refine ⟨hpv, hpvt, ?_, ?_, hch, hcht⟩
      · show (update_max_vote_weight g.pre_commit_max_vote_weight
            ⟨(update_vote_weight_map g.pre_commit_vote_weights sv.vote.block_hash
                sv.vote_weight).1,
              VoteType.PreCommit, sv.vote.round, some sv.vote.block_hash⟩).cum_weight
          = valsMax id (update_vote_weight_map g.pre_commit_vote_weights sv.vote.block_hash
              sv.vote_weight).2
        rw [update_max_cum, hsnd, hvm, hpc]
        rfl
      · intro _
        exact update_max_type _ rfl hcum1 hpct
  | SignedChoke sc =>
    obtain ⟨hpos, hnov⟩ := hcond rfl
    obtain ⟨hpv, hpvt, hpc, hpct, hch, hcht⟩ := hwf
    simp only [Grid.insert, Grid.insert_signed_choke]
    rcases hc : check_exist (getA sc.voter g.signed_chokes) sc Capsule.SignedChoke with e | u
    · exact ⟨hpv, hpvt, hpc, hpct, hch, hcht⟩
    · have hnone := check_exist_ok hc
      have hw1 : (1 : Nat) ≤ sc.vote_weight := hpos
      have hmod : (g.choke_vote_weight.cum_weight + sc.vote_weight) % u32Size
          = g.choke_vote_weight.cum_weight + sc.vote_weight := by
        apply Nat.mod_eq_of_lt
        rw [Nat.add_comm]
        exact hnov
      have hlt : g.choke_vote_weight.cum_weight
          < (g.choke_vote_weight.cum_weight + sc.vote_weight) % u32Size := by
        rw [hmod]
        exact Nat.lt_add_of_pos_right hw1
      have hcw0 : update_max_vote_weight g.choke_vote_weight
            ⟨(g.choke_vote_weight.cum_weight + sc.vote_weight) % u32Size,
              VoteType.Choke, sc.choke.round, none⟩
          = ⟨(g.choke_vote_weight.cum_weight + sc.vote_weight) % u32Size,
              VoteType.Choke, sc.choke.round, none⟩ := by
        unfold update_max_vote_weight
        rw [if_pos hlt]
      refine ⟨hpv, hpvt, hpc, hpct, ?_, ?_⟩
      · show (update_max_vote_weight g.choke_vote_weight
            ⟨(g.choke_vote_weight.cum_weight + sc.vote_weight) % u32Size,
              VoteType.Choke, sc.choke.round, none⟩).cum_weight
          = valsSum SignedChoke.vote_weight (insertA sc.voter sc g.signed_chokes)
        rw [hcw0, getA_none_insertA _ hnone, valsSum_append, ← hch]
        exact hmod
      · intro _
        rw [hcw0]

/-- What a successful vote insert into a consistent drawer returns: the
height-level running maximum of the vote type, equal to the maximum of
the specification-level per-grid maxima over all rounds after the
insert. -/
theorem drawer_insert_vote_wf (dr : Drawer B) (r : Round) (d : Capsule B) (m : CumWeight)
    (hwf : WFDrawer dr) (hpos : 1 ≤ capsuleWeight d)
    (hnov : capsuleWeight d
        + gtracked ((getA r dr.collectors).getD default) (voteTypeOf d) (voteHashOf d)
        < u32Size)
    (hres : (Drawer.insert dr r d).1 = Except.ok (some m)) :
    m.vote_type = voteTypeOf d
    ∧ m.cum_weight
        = valsMax (gridTypeMax (voteTypeOf d)) (Drawer.insert dr r d).2.collectors := by
  have hwfg := wf_gridAt_of_drawer hwf r
  obtain ⟨hgrids, hdpv, hdpvt, hdpc, hdpct, hdch, hdcht⟩ := hwf
  simp only [Drawer.insert] at hres
  rcases hgi : Grid.insert ((getA r dr.collectors).getD default) d with ⟨res, g'⟩
  have hcoll2 : (Drawer.insert dr r d).2.collectors = insertA r g' dr.collectors := by
    rw [drawer_insert_collectors, hgi]
  rw [hgi] at hres
  cases res with
  | error e => exfalso; simp at hres
  | ok o =>
    cases o with
    | none => exfalso; simp at hres
    | some cw =>
      obtain ⟨htype, hge1, hmono, hmax⟩ :=
        grid_insert_vote_wf ((getA r dr.collectors).getD default) d cw hwfg hpos hnov
          (by rw [hgi])
      have hmax' : cw.cum_weight = gridTypeMax (voteTypeOf d) g' := by
        rw [hmax, hgi]
      simp only [Prod.fst] at hres
      cases hvt : voteTypeOf d with
      | PreVote =>
        rw [hvt] at htype hmax' hmono
        rw [htype] at hres
        simp at hres
        have hgefun : ∀ g₀, getA r dr.collectors = some g₀ →
            gridTypeMax VoteType.PreVote g₀ ≤ gridTypeMax VoteType.PreVote g' := by
          intro g₀ hg₀
          rw [hg₀, Option.getD_some] at hmono
          rw [← hmax']
          exact hmono
        have hvm := valsMax_insertA_top (gridTypeMax VoteType.PreVote) r g' dr.collectors hgefun
        refine ⟨?_, ?_⟩
        · rw [← hres]
          exact update_max_type _ htype hge1 hdpvt
        · rw [← hres, update_max_cum, hcoll2, hvm, hdpv, hmax']
      | PreCommit =>
        rw [hvt] at htype hmax' hmono
        rw [htype] at hres
        simp at hres
        have hgefun : ∀ g₀, getA r dr.collectors = some g₀ →
            gridTypeMax VoteType.PreCommit g₀ ≤ gridTypeMax VoteType.PreCommit g' := by
          intro g₀ hg₀
          rw [hg₀, Option.getD_some] at hmono
          rw [← hmax']
          exact hmono
        have hvm := valsMax_insertA_top (gridTypeMax VoteType.PreCommit) r g' dr.collectors hgefun
        refine ⟨?_, ?_⟩
        · rw [← hres]
          exact update_max_type _ htype hge1 hdpct
        · rw [← hres, update_max_cum, hcoll2, hvm, hdpc, hmax']
      | Choke =>
        rw [hvt] at htype hmax' hmono
        rw [htype] at hres
        simp at hres
        have hgefun : ∀ g₀, getA r dr.collectors = some g₀ →
            gridTypeMax VoteType.Choke g₀ ≤ gridTypeMax VoteType.Choke g' := by
          intro g₀ hg₀
          rw [hg₀, Option.getD_some] at hmono
          rw [← hmax']
          exact hmono
        have hvm := valsMax_insertA_top (gridTypeMax VoteType.Choke) r g' dr.collectors hgefun
        refine ⟨?_, ?_⟩
        · rw [← hres]
          exact update_max_type _ htype hge1 hdcht
        · rw [← hres, update_max_cum, hcoll2, hvm, hdch, hmax']

/-- Drawer consistency is preserved by every insert whose vote weight (if
any) is positive and does not overflow its accumulator. -/
theorem drawer_insert_wf (dr : Drawer B) (r : Round) (d : Capsule B) (hwf : WFDrawer dr)
    (hcond : isVoteCapsule d = true →
      1 ≤ capsuleWeight d
      ∧ capsuleWeight d
          + gtracked ((getA r dr.collectors).getD default) (voteTypeOf d) (voteHashOf d)
          < u32Size) :
    WFDrawer (Drawer.insert dr r d).2 := by
  have hwfg := wf_gridAt_of_drawer hwf r
  have hgfull := grid_insert_wf ((getA r dr.collectors).getD default) d hwfg hcond
  obtain ⟨hgrids, hdpv, hdpvt, hdpc, hdpct, hdch, hdcht⟩ := hwf
  rcases hgi : Grid.insert ((getA r dr.collectors).getD default) d with ⟨res, g'⟩
  have hg'wf : WFGrid g' := by rw [hgi] at hgfull; exact hgfull
  have hmem : ∀ p ∈ insertA r g' dr.collectors, WFGrid p.2 := by
    intro p hp
    rcases mem_insertA hp with he | hm
    · rw [he]; exact hg'wf
    · exact hgrids p hm
  simp only [Drawer.insert]
  rw [hgi]
  cases res with
  | error e =>
    have hgg : g' = (getA r dr.collectors).getD default := by
      have h2 := grid_insert_error_snd ((getA r dr.collectors).getD default) d e (by rw [hgi])
      rw [hgi] at h2
      exact h2
    rcases hx : getA r dr.collectors with _ | g₀
    · exfalso
      rw [hx] at hgi
      simp only [Option.getD_none] at hgi
      exact grid_insert_default_fst d e (by rw [hgi])
    · have hsome : getA r dr.collectors = some ((getA r dr.collectors).getD default) := by
        rw [hx]
        rfl
      have hco : insertA r g' dr.collectors = dr.collectors := by
        rw [hgg]
        exact insertA_of_getA_eq hsome
      simp only [Prod.snd]
      exact ⟨hmem, by rw [hco]; exact hdpv, hdpvt, by rw [hco]; exact hdpc, hdpct,
        by rw [hco]; exact hdch, hdcht⟩
  | ok o =>
    cases o with
    | none =>
      have hv : isVoteCapsule d = false := by
        by_cases hb : isVoteCapsule d
        · exact absurd (show (Grid.insert ((getA r dr.collectors).getD default) d).1
              = Except.ok none by rw [hgi]) (grid_insert_vote_not_none _ d hb)
        · simpa using hb
      have hco : ∀ vt, valsMax (gridTypeMax vt) (insertA r g' dr.collectors)
          = valsMax (gridTypeMax vt) dr.collectors := by
        intro vt
        refine valsMax_insertA_frame _ r g' dr.collectors ?_ (gridTypeMax_default vt)
        have h2 := grid_insert_typeMax_frame ((getA r dr.collectors).getD default) d vt
          (Or.inr hv)
        rw [hgi] at h2
        exact h2
      simp only [Prod.snd]
      exact ⟨hmem, by rw [hco]; exact hdpv, hdpvt, by rw [hco]; exact hdpc, hdpct,
        by rw [hco]; exact hdch, hdcht⟩
    | some cw =>
      have hvB : isVoteCapsule d = true := grid_insert_some_isVote
        (show (Grid.insert ((getA r dr.collectors).getD default) d).1
          = Except.ok (some cw) by rw [hgi])
      obtain ⟨hpos, hnov⟩ := hcond hvB
      obtain ⟨htype, hge1, hmono, hmax⟩ :=
        grid_insert_vote_wf ((getA r dr.collectors).getD default) d cw hwfg hpos hnov
          (by rw [hgi])
      have hmax' : cw.cum_weight = gridTypeMax (voteTypeOf d) g' := by
        rw [hmax, hgi]
      have hco : ∀ vt, vt ≠ voteTypeOf d →
          valsMax (gridTypeMax vt) (insertA r g' dr.collectors)
            = valsMax (gridTypeMax vt) dr.collectors := by
        intro vt hvt
        refine valsMax_insertA_frame _ r g' dr.collectors ?_ (gridTypeMax_default vt)
        have h2 := grid_insert_typeMax_frame ((getA r dr.collectors).getD default) d vt
          (Or.inl hvt)
        rw [hgi] at h2
        exact h2
      have hgefun : ∀ g₀, getA r dr.collectors = some g₀ →
          gridTypeMax (voteTypeOf d) g₀ ≤ gridTypeMax (voteTypeOf d) g' := by
        intro g₀ hg₀
        rw [hg₀, Option.getD_some] at hmono
        rw [← hmax']
        exact hmono
      have hvm := valsMax_insertA_top (gridTypeMax (voteTypeOf d)) r g' dr.collectors hgefun
      simp only [Prod.snd]
      cases hvt : voteTypeOf d with
      | PreVote =>
        rw [hvt] at htype hmax' hvm hco
        rw [htype]
        exact ⟨hmem,
          by rw [update_max_cum, hvm, hdpv, hmax'],
          fun _ => update_max_type _ htype hge1 hdpvt,
          by rw [hco VoteType.PreCommit (by decide)]; exact hdpc, hdpct,
          by rw [hco VoteType.Choke (by decide)]; exact hdch, hdcht⟩
      | PreCommit =>
        rw [hvt] at htype hmax' hvm hco
        rw [htype]
        exact ⟨hmem,
          by rw [hco VoteType.PreVote (by decide)]; exact hdpv, hdpvt,
          by rw [update_max_cum, hvm, hdpc, hmax'],
          fun _ => update_max_type _ htype hge1 hdpct,
          by rw [hco VoteType.Choke (by decide)]; exact hdch, hdcht⟩
      | Choke =>
        rw [hvt] at htype hmax' hvm hco
        rw [htype]
        exact ⟨hmem,
          by rw [hco VoteType.PreVote (by decide)]; exact hdpv, hdpvt,
          by rw [hco VoteType.PreCommit (by decide)]; exact hdpc, hdpct,
          by rw [update_max_cum, hvm, hdch, hmax'],
          fun _ => update_max_type _ htype hge1 hdcht⟩

/-- The empty cabinet is consistent. -/
theorem wf_empty_cabinet : WFCabinet (⟨[]⟩ : Cabinet B) :=
  fun p hp => absurd hp (List.not_mem_nil p)

/-- Cabinet consistency (`WFCabinet`) is preserved by every insert whose
vote weight (if any) is positive and does not overflow its accumulator:
together with `wf_empty_cabinet`, every cabinet built by such inserts is
consistent, which is what the amended C3 assumes. -/
theorem cabinet_insert_wf (c : Cabinet B) (hh : Height) (r : Round) (d : Capsule B)
    (hwf : WFCabinet c)
    (hcond : isVoteCapsule d = true →
      1 ≤ capsuleWeight d
      ∧ capsuleWeight d + tracked c hh r (voteTypeOf d) (voteHashOf d) < u32Size) :
    WFCabinet (Cabinet.insert c hh r d).2 := by
  intro p hp
  rcases mem_insertA hp with he | hm
  · rw [he]
    exact drawer_insert_wf (drawerAt c hh) r d (wf_drawerAt hwf hh) hcond
  · exact hwf p hm

end HeightMaxLemmas

/-- C3 counterexample (mirrors the crate's own `check_vote` test): starting
from an empty cabinet, insert a pre-vote of weight 10 at (height 0,
round 0), one of weight 21 at (0, round 1), then one of weight 5 at
(0, round 0).  The third insert returns cumulative weight 21 tagged round
1 — the height-level maximum — while the maximum cumulative weight at
exactly (0, 0) is 10 + 5 = 15: the returned value reflects a vote
inserted at a different round of the same height. -/
theorem C3_counterexample :
    (Cabinet.insert
        (Cabinet.insert
            (Cabinet.insert (⟨[]⟩ : Cabinet Unit) 0 0
                (Capsule.SignedPreVote ⟨⟨0, 0, [5]⟩, 10, [1], []⟩)).2
            0 1 (Capsule.SignedPreVote ⟨⟨0, 1, [5]⟩, 21, [2], []⟩)).2
        0 0 (Capsule.SignedPreVote ⟨⟨0, 0, [5]⟩, 5, [3], []⟩)).1
      = Except.ok (some ⟨21, VoteType.PreVote, 1, some [5]⟩)
    ∧ roundMax
        (Cabinet.insert
          (Cabinet.insert
              (Cabinet.insert (⟨[]⟩ : Cabinet Unit) 0 0
                  (Capsule.SignedPreVote ⟨⟨0, 0, [5]⟩, 10, [1], []⟩)).2
              0 1 (Capsule.SignedPreVote ⟨⟨0, 1, [5]⟩, 21, [2], []⟩)).2
          0 0 (Capsule.SignedPreVote ⟨⟨0, 0, [5]⟩, 5, [3], []⟩)).2
        0 0 VoteType.PreVote = 15
    ∧ (21 : Nat) ≠ 15 := by
  refine ⟨?_, ?_, ?_⟩
  · decide
  · decide
  · decide

/-- C3 (amended): for every vote insert that succeeds with `Ok(Some cw)`
on a consistent cabinet (one whose running maxima match its stores, as
holds for every cabinet built from positive, non-overflowing inserts),
`cw` carries the vote type of the inserted vote and its `cum_weight` is
the maximum cumulative weight for that vote type across ALL rounds of the
height — the maximum over rounds of the per-hash accumulated weights (the
total choke weight for chokes) — not the maximum at round r alone. -/
theorem C3_amended_height_max {B : Type} [DecidableEq B] (c : Cabinet B) (hh : Height)
    (r : Round) (d : Capsule B) (cw : CumWeight)
    (hwf : WFCabinet c) (hpos : 1 ≤ capsuleWeight d)
    (hnov : capsuleWeight d + tracked c hh r (voteTypeOf d) (voteHashOf d) < u32Size)
    (hres : (Cabinet.insert c hh r d).1 = Except.ok (some cw)) :
    cw.vote_type = voteTypeOf d
    ∧ cw.cum_weight = heightMax (Cabinet.insert c hh r d).2 hh (voteTypeOf d) := by
  have hdw := drawer_insert_vote_wf (drawerAt c hh) r d cw (wf_drawerAt hwf hh) hpos hnov hres
  refine ⟨hdw.1, ?_⟩
  have hdrAt : drawerAt (Cabinet.insert c hh r d).2 hh
      = (Drawer.insert (drawerAt c hh) r d).2 := by
    show (getA hh (insertA hh (Drawer.insert (drawerAt c hh) r d).2 c.drawers)).getD default
      = _
    rw [getA_insertA_self, Option.getD_some]
  show cw.cum_weight
    = valsMax (gridTypeMax (voteTypeOf d)) (drawerAt (Cabinet.insert c hh r d).2 hh).collectors
  rw [hdrAt]
  exact hdw.2

/-- Witness for C3 (amended): a concrete two-round scenario.  The insert
at round 0 returns the height-level maximum 21 attained at round 1. -/
theorem C3_amended_height_max_witness :
    (WFCabinet
        (Cabinet.insert
            (Cabinet.insert (⟨[]⟩ : Cabinet Unit) 0 0
                (Capsule.SignedPreVote ⟨⟨0, 0, [5]⟩, 10, [1], []⟩)).2
            0 1 (Capsule.SignedPreVote ⟨⟨0, 1, [5]⟩, 21, [2], []⟩)).2
      ∧ 1 ≤ capsuleWeight (Capsule.SignedPreVote (B := Unit) ⟨⟨0, 0, [5]⟩, 5, [3], []⟩)
      ∧ capsuleWeight (Capsule.SignedPreVote (B := Unit) ⟨⟨0, 0, [5]⟩, 5, [3], []⟩)
          + tracked
              (Cabinet.insert
                  (Cabinet.insert (⟨[]⟩ : Cabinet Unit) 0 0
                      (Capsule.SignedPreVote ⟨⟨0, 0, [5]⟩, 10, [1], []⟩)).2
                  0 1 (Capsule.SignedPreVote ⟨⟨0, 1, [5]⟩, 21, [2], []⟩)).2
              0 0 (voteTypeOf (Capsule.SignedPreVote (B := Unit) ⟨⟨0, 0, [5]⟩, 5, [3], []⟩))
              (voteHashOf (Capsule.SignedPreVote (B := Unit) ⟨⟨0, 0, [5]⟩, 5, [3], []⟩))
          < u32Size
      ∧ (Cabinet.insert
          (Cabinet.insert
              (Cabinet.insert (⟨[]⟩ : Cabinet Unit) 0 0
                  (Capsule.SignedPreVote ⟨⟨0, 0, [5]⟩, 10, [1], []⟩)).2
              0 1 (Capsule.SignedPreVote ⟨⟨0, 1, [5]⟩, 21, [2], []⟩)).2
          0 0 (Capsule.SignedPreVote ⟨⟨0, 0, [5]⟩, 5, [3], []⟩)).1
        = Except.ok (some ⟨21, VoteType.PreVote, 1, some [5]⟩))
    ∧ ((⟨21, VoteType.PreVote, 1, some [5]⟩ : CumWeight).vote_type
        = voteTypeOf (Capsule.SignedPreVote (B := Unit) ⟨⟨0, 0, [5]⟩, 5, [3], []⟩)
      ∧ (⟨21, VoteType.PreVote, 1, some [5]⟩ : CumWeight).cum_weight
        = heightMax
            (Cabinet.insert
              (Cabinet.insert
                  (Cabinet.insert (⟨[]⟩ : Cabinet Unit) 0 0
                      (Capsule.SignedPreVote ⟨⟨0, 0, [5]⟩, 10, [1], []⟩)).2
                  0 1 (Capsule.SignedPreVote ⟨⟨0, 1, [5]⟩, 21, [2], []⟩)).2
              0 0 (Capsule.SignedPreVote ⟨⟨0, 0, [5]⟩, 5, [3], []⟩)).2
            0 (voteTypeOf (Capsule.SignedPreVote (B := Unit) ⟨⟨0, 0, [5]⟩, 5, [3], []⟩))) :=
  ⟨⟨by decide, by decide, by decide, by decide⟩,
    C3_amended_height_max _ 0 0 _ _ (by decide) (by decide) (by decide) (by decide)⟩

/-! ### C1: agreement -/

/-- Two quorums share a correct member: their weight overlap exceeds the
Byzantine weight when at most a third of the voting power is faulty. -/
theorem quorum_intersect_correct (W : ConsensusWorld)
    (hbyz : 3 * byzWeight W ≤ totalWeight W) {S1 S2 : Finset Address}
    (h1 : QuorumW W S1) (h2 : QuorumW W S2) :
    ∃ a, a ∈ S1 ∧ a ∈ S2 ∧ W.correct a = true := by
  by_contra hno
  push_neg at hno
  have hsub : S1 ∩ S2 ⊆ W.auths.filter (fun a => W.correct a = false) := by
    intro a ha
    rw [Finset.mem_inter] at ha
    rw [Finset.mem_filter]
    refine ⟨h1.1 ha.1, ?_⟩
    have := hno a ha.1 ha.2
    exact Bool.eq_false_iff.mpr this
  have hw : ∑ a ∈ S1 ∩ S2, W.w a ≤ byzWeight W :=
    Finset.sum_le_sum_of_subset hsub
  have hunion : ∑ a ∈ S1 ∪ S2, W.w a ≤ totalWeight W :=
    Finset.sum_le_sum_of_subset (Finset.union_subset h1.1 h2.1)
  have hie : ∑ a ∈ S1 ∪ S2, W.w a + ∑ a ∈ S1 ∩ S2, W.w a
      = ∑ a ∈ S1, W.w a + ∑ a ∈ S2, W.w a :=
    Finset.sum_union_inter
  have e1 := h1.2
  have e2 := h2.2
  unfold threshold at e1 e2
  omega

/-- After a pre-commit QC for a non-empty `x` at round `rx`, no polka for
any other non-empty hash can exist at any round `≥ rx` (strong induction
over the round, using quorum intersection and the lock assumption). -/
theorem polka_conflict (W : ConsensusWorld) (hS : SafeWorld W) (x : Hash) (rx : Round)
    (hx : x ≠ []) (hqc : PrecommitQCAt W rx x) :
    ∀ r', rx ≤ r' → ∀ z, z ≠ x → z ≠ [] → ¬ PolkaAt W r' z := by
  obtain ⟨hbyz, _, huniq, hpolka, hlock⟩ := hS
  intro r'
  induction r' using Nat.strong_induction_on with
  | _ r' ih =>
    intro hge z hzx hze hpz
    obtain ⟨Sz, hSzQ, hSzv⟩ := hpz
    obtain ⟨Sx, hSxQ, hSxv⟩ := hqc
    obtain ⟨c, hcSx, hcSz, hcC⟩ := quorum_intersect_correct W hbyz hSxQ hSzQ
    have hcx : W.precommit c rx x := hSxv c hcSx
    have hcz : W.prevote c r' z := hSzv c hcSz
    rcases Nat.eq_or_lt_of_le hge with heq | hlt
    · subst heq
      obtain ⟨Sp, hSpQ, hSpv⟩ := hpolka c rx x hcC hcx hx
      obtain ⟨dd, hd1, hd2, hdC⟩ := quorum_intersect_correct W hbyz hSpQ hSzQ
      exact hzx (huniq dd rx z x hdC (hSzv dd hd2) (hSpv dd hd1))
    · obtain ⟨s, hs1, hs2, hps⟩ := hlock c rx r' x z hcC hcx hx hcz hlt hzx hze
      exact ih s hs2 hs1 z hzx hze hps

/-- C1: agreement — in any per-height protocol model satisfying the
spec's assumptions (`SafeWorld`), any two correct authorities that commit
at this height commit the same block hash, whatever the rounds. -/
theorem C1_agreement (W : ConsensusWorld) (hS : SafeWorld W)
    (a b : Address) (ra rb : Round) (x y : Hash)
    (hca : W.correct a = true) (hcb : W.correct b = true)
    (hxa : W.committed a ra x) (hyb : W.committed b rb y) :
    x = y := by
  have hcommit := hS.2.1
  have hbyz := hS.1
  have hpolka := hS.2.2.2.1
  obtain ⟨hxe, hqx⟩ := hcommit a ra x hca hxa
  obtain ⟨hye, hqy⟩ := hcommit b rb y hcb hyb
  by_contra hxy
  rcases Nat.le_total ra rb with hle | hle
  · obtain ⟨Sy, hQy, hvy⟩ := hqy
    obtain ⟨cy, hcy1, _, hcyC⟩ := quorum_intersect_correct W hbyz hQy hQy
    have hpy : PolkaAt W rb y := hpolka cy rb y hcyC (hvy cy hcy1) hye
    exact polka_conflict W hS x ra hxe hqx rb hle y (Ne.symm hxy) hye hpy
  · obtain ⟨Sx, hQx, hvx⟩ := hqx
    obtain ⟨cx, hcx1, _, hcxC⟩ := quorum_intersect_correct W hbyz hQx hQx
    have hpx : PolkaAt W ra x := hpolka cx ra x hcxC (hvx cx hcx1) hxe
    exact polka_conflict W hS y rb hye hqy ra hle x hxy hxe hpx

/-- Witness for C1: in the concrete four-authority height, the protocol
assumptions hold and two correct authorities commit; agreement applies. -/
theorem C1_agreement_witness :
    (SafeWorld exampleWorld
      ∧ exampleWorld.correct [0] = true
      ∧ exampleWorld.correct [1] = true
      ∧ exampleWorld.committed [0] 0 [1]
      ∧ exampleWorld.committed [1] 0 [1])
    ∧ ([1] : Hash) = [1] := by
  have hsafe : SafeWorld exampleWorld := by
    refine ⟨by decide, ?_, ?_, ?_, ?_⟩
    · intro a r h hc hcm
      obtain ⟨hr, hh, ha⟩ := hcm
      subst hr
      subst hh
      refine ⟨by decide, exampleWorld.auths, ⟨Finset.Subset.refl _, by decide⟩, ?_⟩
      intro a' ha'
      exact ⟨rfl, rfl⟩
    · intro a r h h' hc h1 h2
      obtain ⟨_, hh⟩ := h1
      obtain ⟨_, hh'⟩ := h2
      rw [hh, hh']
    · intro a r h hc hpc hne
      obtain ⟨hr, hh⟩ := hpc
      subst hr
      subst hh
      exact ⟨exampleWorld.auths, ⟨Finset.Subset.refl _, by decide⟩, fun a' ha' => ⟨rfl, rfl⟩⟩
    · intro a r r' x y hc hpc hx hpv hlt hyx hye
      obtain ⟨hr, _⟩ := hpc
      obtain ⟨hr', _⟩ := hpv
      subst hr
      subst hr'
      exact absurd hlt (Nat.lt_irrefl 0)
  refine ⟨⟨hsafe, rfl, rfl, ⟨rfl, rfl, Or.inl rfl⟩, ⟨rfl, rfl, Or.inr rfl⟩⟩, ?_⟩
  exact C1_agreement exampleWorld hsafe [0] [1] 0 0 [1] [1] rfl rfl
    ⟨rfl, rfl, Or.inl rfl⟩ ⟨rfl, rfl, Or.inr rfl⟩

end Overlord
